import Mathlib

/-!
# Verification of the creative-career-os knowledge-block manager

Shallow embedding of `src/tools/knowledge-block-manager/manager.py` and
`src/tools/toolkit-converter/converter.py`.

Modelling conventions:
* A Python/JSON value is a `Json`; numbers are split into `Json.int`
  (Python `int`) and `Json.num` (Python `float`, modelled exactly as `ℚ`) so
  that the validator's `isinstance` distinctions are kept.
* A Python dict is an association list `Obj` with first-occurrence lookup and
  replace-in-place insertion; real Python dicts never hold duplicate keys, and
  on duplicate-free lists these operations agree with dict semantics.
* The on-disk store (`<data_dir>/<domain>/<id>.json`, one JSON document per
  block) is a `Store`: an association list from `(domain, id)` to the parsed
  document.  All stored files are modelled as parseable JSON documents.
* Exceptions are modelled with `Except VErr` / `OpResult`; time stamps and
  generated ids (`datetime.now`, md5/uuid) are passed in as explicit
  parameters.
-/

set_option maxRecDepth 10000

/-- A JSON / Python value.  `int` and `num` are kept apart because Python's
`isinstance(v, int)` distinguishes `int` from `float`. -/
inductive Json where
  | str (s : String)
  | int (n : ℤ)
  | num (q : ℚ)
  | bool (b : Bool)
  | null
  | arr (xs : List Json)
  | obj (fields : List (String × Json))

/-- A Python dict with string keys (a JSON object). -/
abbrev Obj := List (String × Json)

/-- Dict lookup (`d[k]` / `k in d`): first matching key. -/
def dGet (o : Obj) (k : String) : Option Json :=
  match o with
  | [] => none
  | (k₀, v₀) :: rest => if k₀ = k then some v₀ else dGet rest k

/-- Dict assignment `d[k] = v`: replace the first occurrence in place, append
at the end when the key is absent (Python dicts keep insertion order). -/
def dSet (o : Obj) (k : String) (v : Json) : Obj :=
  match o with
  | [] => [(k, v)]
  | (k₀, v₀) :: rest => if k₀ = k then (k, v) :: rest else (k₀, v₀) :: dSet rest k v

/-- `d.update(u)` (manager.py:156): set each key/value pair of `u` in order. -/
def dictUpdate (o : Obj) (u : Obj) : Obj :=
  u.foldl (fun acc kv => dSet acc kv.1 kv.2) o

/-- `d.get(k, dflt)`. -/
def dGetD (o : Obj) (k : String) (dflt : Json) : Json :=
  (dGet o k).getD dflt

/-- `d.setdefault`-like helper for create's `if k not in d: d[k] = v`. -/
def setDefault (o : Obj) (k : String) (v : Json) : Obj :=
  if (dGet o k).isSome then o else dSet o k v

/-- Does `dGet o k` hold the string `s`?  (Avoids needing `DecidableEq Json`.) -/
def isStrVal (o : Obj) (k s : String) : Bool :=
  match dGet o k with
  | some (Json.str t) => t = s
  | _ => false

/-- Does `pat` occur at the head of `s`? -/
def charsStarts (s pat : List Char) : Bool :=
  match s, pat with
  | _, [] => true
  | [], _ :: _ => false
  | c :: cs, p :: ps => c = p && charsStarts cs ps

/-- Python's `pat in s` substring test. -/
def charsContains (s pat : List Char) : Bool :=
  match s with
  | [] => charsStarts [] pat
  | _ :: rest => charsStarts s pat || charsContains rest pat

/-- `needle in hay` on strings. -/
def strContains (hay needle : String) : Bool :=
  charsContains hay.data needle.data

/-- The errors the manager can raise: schema validation errors
(`ValueError` in `_validate_block`), `KeyError`/`TypeError`/`ValueError`
from dict access and arithmetic, the unsupported-export `ValueError`,
missing-directory I/O errors, and the converter's `IndexError`. -/
inductive VErr where
  | missingField (f : String)
  | typeMismatch (f t : String)
  | unsupportedFormat (f : String)
  | keyError (k : String)
  | typeError
  | valueError
  | ioError
  | indexError
  deriving DecidableEq, Repr

/-- The result of an operation that returns `None` on a missed lookup and may
raise (`update_block`, `add_feedback`, `increment_usage`). -/
inductive OpResult (α : Type) where
  | notFound
  | error (e : VErr)
  | ok (a : α)

/-- The filesystem store: one entry per file `<data_dir>/<domain>/<id>.json`,
in directory-listing order.  Keys are unique on a real filesystem. -/
abbrev Store := List ((String × String) × Obj)

/-- Read the file `<domain>/<id>.json` if it exists. -/
def storeGet (st : Store) (d i : String) : Option Obj :=
  match st with
  | [] => none
  | (k, b) :: rest => if k.1 = d ∧ k.2 = i then some b else storeGet rest d i

/-- Write the file `<domain>/<id>.json`: overwrite in place or create. -/
def storeSet (st : Store) (k : String × String) (b : Obj) : Store :=
  match st with
  | [] => [(k, b)]
  | (k₀, b₀) :: rest => if k₀ = k then (k, b) :: rest else (k₀, b₀) :: storeSet rest k b

/-- `os.remove` of `<domain>/<id>.json`. -/
def storeDel (st : Store) (d i : String) : Store :=
  match st with
  | [] => []
  | (k, b) :: rest =>
    if k.1 = d ∧ k.2 = i then storeDel rest d i else (k, b) :: storeDel rest d i

/-- The fixed domain list (manager.py:30, 140, 193, 279). -/
def knownDomains : List String :=
  ["defense", "proactive", "mindset", "efficiency", "relationship"]

/-- The schema document loaded by `_load_schema`: a `required` list and a
`properties` map; a property may lack a `"type"` entry (then no check). -/
structure Schema where
  required : List String
  properties : List (String × Option String)

/-- One `isinstance` branch of `_validate_block` (manager.py:106-119).
Python's `bool` is a subclass of `int`, so a `bool` passes the `number` and
`integer` checks; an unknown type string matches no `elif` branch and is
accepted. -/
def typeOk (t : String) (v : Json) : Bool :=
  if t = "string" then (match v with | Json.str _ => true | _ => false)
  else if t = "number" then
    (match v with | Json.int _ => true | Json.num _ => true | Json.bool _ => true | _ => false)
  else if t = "integer" then
    (match v with | Json.int _ => true | Json.bool _ => true | _ => false)
  else if t = "boolean" then (match v with | Json.bool _ => true | _ => false)
  else if t = "array" then (match v with | Json.arr _ => true | _ => false)
  else if t = "object" then (match v with | Json.obj _ => true | _ => false)
  else true

/-- First required field missing from the record (manager.py:96-99). -/
def findMissing (req : List String) (o : Obj) : Option String :=
  req.find? (fun f => (dGet o f).isNone)

/-- First declared-type mismatch among the present fields (manager.py:102-119). -/
def findTypeErr (props : List (String × Option String)) (o : Obj) : Option VErr :=
  match props with
  | [] => none
  | (f, t?) :: rest =>
    match dGet o f, t? with
    | some v, some t =>
      if typeOk t v then findTypeErr rest o else some (VErr.typeMismatch f t)
    | _, _ => findTypeErr rest o

/-- `_validate_block` (manager.py:93-119): `none` means the record validates;
`some e` is the first raised `ValueError`. -/
def validateBlock (sc : Schema) (o : Obj) : Option VErr :=
  match findMissing sc.required o with
  | some f => some (VErr.missingField f)
  | none => findTypeErr sc.properties o

/-- `_save_block` (manager.py:121-129): the path is derived from the record's
own `domain` and `id` fields.  A missing `domain`/`id` key raises `KeyError`;
a non-string `domain` makes `os.path.join` raise `TypeError`; a domain outside
the five directories created by `_ensure_dirs` makes `open(..., 'w')` raise
`FileNotFoundError` (modelled `ioError`).  A non-string `id` would be
stringified into the filename by the f-string; every validated flow stores a
string id (the schema declares `id` a string) and the feedback/usage paths
never change `id`, so that case is modelled as an error — no claim reaches it. -/
def saveBlock (st : Store) (o : Obj) : Except VErr Store :=
  match dGet o "domain" with
  | none => Except.error (VErr.keyError "domain")
  | some (Json.str d) =>
    match dGet o "id" with
    | none => Except.error (VErr.keyError "id")
    | some (Json.str i) =>
      if knownDomains.contains d then Except.ok (storeSet st (d, i) o)
      else Except.error VErr.ioError
    | some _ => Except.error VErr.typeError
  | some _ => Except.error VErr.typeError

/-- `get_block` (manager.py:131-146).  `if domain:` is Python truthiness, so
`None` and the empty string both fall back to the fixed-order scan of all
domain directories. -/
def getBlock (st : Store) (i : String) (domain : Option String) : Option Obj :=
  match domain with
  | some d =>
    if d = "" then knownDomains.findSome? (fun d₀ => storeGet st d₀ i)
    else storeGet st d i
  | none => knownDomains.findSome? (fun d₀ => storeGet st d₀ i)

/-- Step 1 of `create_block` (manager.py:58-59): generate an id from the title
when none is given.  `generate_id(block_data['title'])` raises `KeyError` when
`title` is absent and `AttributeError` (`typeError`) when it is not a string;
the hash/timestamp-derived result is the parameter `genId`. -/
def withId (data : Obj) (genId : String) : Except VErr Obj :=
  if (dGet data "id").isSome then Except.ok data
  else
    match dGet data "title" with
    | some (Json.str _) => Except.ok (dSet data "id" (Json.str genId))
    | some _ => Except.error VErr.typeError
    | none => Except.error (VErr.keyError "title")

/-- Steps 2-3 of `create_block` (manager.py:62-83): timestamps and defaults,
in source order.  `now` is `datetime.datetime.now().isoformat()`. -/
def withDefaults (o : Obj) (now : String) : Obj :=
  let o₁ := if (dGet o "created_at").isSome then o else dSet o "created_at" (Json.str now)
  let o₂ := dSet o₁ "updated_at" (Json.str now)
  let o₃ := setDefault o₂ "version" (Json.str "1.0")
  let o₄ := setDefault o₃ "usage_count" (Json.int 0)
  let o₅ := setDefault o₄ "rating" (Json.num 0)
  let o₆ := setDefault o₅ "feedback" (Json.arr [])
  let o₇ := setDefault o₆ "variations" (Json.arr [])
  let o₈ := setDefault o₇ "examples" (Json.arr [])
  let o₉ := setDefault o₈ "tags" (Json.arr [])
  setDefault o₉ "related_blocks" (Json.arr [])

/-- `create_block` (manager.py:55-91): fill in id/timestamps/defaults,
validate, save.  Nothing is written unless validation succeeds. -/
def createBlock (sc : Schema) (genId now : String) (data : Obj) (st : Store) :
    Except VErr Obj × Store :=
  match withId data genId with
  | Except.error e => (Except.error e, st)
  | Except.ok d₁ =>
    match validateBlock sc (withDefaults d₁ now) with
    | some e => (Except.error e, st)
    | none =>
      match saveBlock st (withDefaults d₁ now) with
      | Except.error e => (Except.error e, st)
      | Except.ok st' => (Except.ok (withDefaults d₁ now), st')

/-- A Python `int(...)` literal parse (sign and decimal digits; the exotic
whitespace/underscore forms never occur in version strings). -/
def pyInt (s : String) : Option ℤ :=
  match s.data with
  | [] => none
  | '-' :: ds => if ds ≠ [] ∧ ds.all Char.isDigit then some (-(Nat.ofDigits 10 (ds.map (fun c => c.toNat - '0'.toNat)).reverse : ℕ)) else none
  | '+' :: ds => if ds ≠ [] ∧ ds.all Char.isDigit then some (Nat.ofDigits 10 (ds.map (fun c => c.toNat - '0'.toNat)).reverse : ℕ) else none
  | ds => if ds.all Char.isDigit then some (Nat.ofDigits 10 (ds.map (fun c => c.toNat - '0'.toNat)).reverse : ℕ) else none

/-- Split a character list at every occurrence of `sep` (Python
`str.split(sep)` for a one-character separator). -/
def splitOnChar (sep : Char) : List Char → List (List Char)
  | [] => [[]]
  | c :: rest =>
    match splitOnChar sep rest with
    | [] => [[]]
    | g :: gs => if c = sep then [] :: g :: gs else (c :: g) :: gs

/-- `map(int, version.split('.'))` unpacked into exactly two ints
(manager.py:161): any other shape raises `ValueError`. -/
def parseVersion (v : String) : Option (ℤ × ℤ) :=
  match (splitOnChar '.' v.data).map (fun cs => pyInt (String.mk cs)) with
  | [some ma, some mi] => some (ma, mi)
  | _ => none

/-- `f"{major}.{minor + 1}"` (manager.py:162). -/
def formatVersion (ma mi : ℤ) : String :=
  toString ma ++ "." ++ toString mi

/-- The record after `block.update(updates)` and
`block['updated_at'] = now` (manager.py:156-157). -/
def mergedBlock (b upd : Obj) (now : String) : Obj :=
  dSet (dictUpdate b upd) "updated_at" (Json.str now)

/-- The version bump of `update_block` (manager.py:160-162): only applied when
a `version` key is present; a non-string version raises `AttributeError`
(`typeError`), an unparseable one raises `ValueError`. -/
def versionBump (o : Obj) : Except VErr Obj :=
  match dGet o "version" with
  | none => Except.ok o
  | some (Json.str v) =>
    match parseVersion v with
    | some (ma, mi) => Except.ok (dSet o "version" (Json.str (formatVersion ma (mi + 1))))
    | none => Except.error VErr.valueError
  | some _ => Except.error VErr.typeError

/-- `block = self.get_block(block_id)` followed by `if not block:` in
update/delete/add_feedback/increment_usage (manager.py:152, 174, 245, 269):
Python truthiness treats an empty stored dict exactly like a miss. -/
def lookupTruthy (st : Store) (i : String) : Option Obj :=
  match getBlock st i none with
  | none => none
  | some b => if b.isEmpty then none else some b

/-- `update_block` (manager.py:148-168): domain-less lookup, shallow merge,
`updated_at` refresh, minor-version bump, re-validate, re-save. -/
def updateBlock (sc : Schema) (st : Store) (i : String) (upd : Obj) (now : String) :
    OpResult Obj × Store :=
  match lookupTruthy st i with
  | none => (OpResult.notFound, st)
  | some b =>
    match versionBump (mergedBlock b upd now) with
    | Except.error e => (OpResult.error e, st)
    | Except.ok m =>
      match validateBlock sc m with
      | some e => (OpResult.error e, st)
      | none =>
        match saveBlock st m with
        | Except.error e => (OpResult.error e, st)
        | Except.ok st' => (OpResult.ok m, st')

/-- `delete_block` (manager.py:170-183): look the block up to read its
`domain` field, then remove `<domain>/<id>.json` if that path exists. -/
def deleteBlock (st : Store) (i : String) : Except VErr Bool × Store :=
  match lookupTruthy st i with
  | none => (Except.ok false, st)
  | some b =>
    match dGet b "domain" with
    | none => (Except.error (VErr.keyError "domain"), st)
    | some (Json.str d) =>
      if (storeGet st d i).isSome then (Except.ok true, storeDel st d i)
      else (Except.ok false, st)
    | some _ => (Except.error VErr.typeError, st)

/-- Append the new entry to `block['feedback']` (manager.py:253-255), creating
the list when the key is absent; `.append` on a non-list raises.  Returns the
updated record together with the new entry list. -/
def feedbackAppend (b : Obj) (fb : Obj) : Except VErr (Obj × List Json) :=
  match dGet b "feedback" with
  | none =>
    Except.ok (dSet b "feedback" (Json.arr [Json.obj fb]), [Json.obj fb])
  | some (Json.arr xs) =>
    Except.ok (dSet b "feedback" (Json.arr (xs ++ [Json.obj fb])), xs ++ [Json.obj fb])
  | some _ => Except.error VErr.typeError

/-- Numeric coercion used by `sum(...)`: Python sums `int`, `float` and `bool`
(`True == 1`); anything else raises `TypeError`. -/
def jNum (v : Json) : Option ℚ :=
  match v with
  | Json.int n => some (n : ℚ)
  | Json.num q => some q
  | Json.bool b => some (if b then 1 else 0)
  | _ => none

/-- `[f['rating'] for f in block['feedback'] if 'rating' in f]` followed by
`sum(ratings)` (manager.py:258-260), fused into one pass producing the rating
values as rationals.  For a dict entry, `'rating' in f` is a key test; for a
list it is membership (then `f['rating']` raises `TypeError`); for a string a
substring test (then indexing raises); for any other value `in` itself raises. -/
def ratingsOf : List Json → Except VErr (List ℚ)
  | [] => Except.ok []
  | Json.obj o :: rest =>
    match dGet o "rating" with
    | none => ratingsOf rest
    | some v =>
      match jNum v with
      | some q => (ratingsOf rest).map (fun qs => q :: qs)
      | none => Except.error VErr.typeError
  | Json.arr xs :: rest =>
    if xs.any (fun j => match j with | Json.str s => s = "rating" | _ => false)
    then Except.error VErr.typeError else ratingsOf rest
  | Json.str s :: rest =>
    if strContains s "rating" then Except.error VErr.typeError else ratingsOf rest
  | _ :: _ => Except.error VErr.typeError

/-- The rating recomputation (manager.py:257-260): when at least one entry
carries a rating, store their mean (Python's `/` always yields a float); when
none does, leave the record untouched. -/
def withRating (b₁ : Obj) (qs : List ℚ) : Obj :=
  if qs.isEmpty then b₁ else dSet b₁ "rating" (Json.num (qs.sum / qs.length))

/-- `add_feedback` (manager.py:242-264): domain-less lookup, stamp the entry
with a generated id and date, append it, recompute the mean rating over the
entries that carry one (the rating is left untouched when none does), save.
`fbId` stands for `generate_id(f"feedback_{block_id}")` and `now` for
`datetime.datetime.now().isoformat()`.  Note: `updated_at` is not refreshed. -/
def addFeedback (st : Store) (i : String) (fb : Obj) (fbId now : String) :
    OpResult Obj × Store :=
  match lookupTruthy st i with
  | none => (OpResult.notFound, st)
  | some b =>
    match feedbackAppend b (dSet (dSet fb "id" (Json.str fbId)) "date" (Json.str now)) with
    | Except.error e => (OpResult.error e, st)
    | Except.ok (b₁, entries) =>
      match ratingsOf entries with
      | Except.error e => (OpResult.error e, st)
      | Except.ok qs =>
        match saveBlock st (withRating b₁ qs) with
        | Except.error e => (OpResult.error e, st)
        | Except.ok st' => (OpResult.ok (withRating b₁ qs), st')

/-- `block.get('usage_count', 0) + 1` (manager.py:272): Python addition on the
stored value; `+ 1` on a non-number raises `TypeError`. -/
def usageBump (v : Option Json) : Except VErr Json :=
  match v with
  | none => Except.ok (Json.int 1)
  | some (Json.int n) => Except.ok (Json.int (n + 1))
  | some (Json.num q) => Except.ok (Json.num (q + 1))
  | some (Json.bool b) => Except.ok (Json.int ((if b then 1 else 0) + 1))
  | some _ => Except.error VErr.typeError

/-- `increment_usage` (manager.py:266-274).  Note: `updated_at` is not
refreshed and no validation is performed. -/
def incrementUsage (st : Store) (i : String) : OpResult Obj × Store :=
  match lookupTruthy st i with
  | none => (OpResult.notFound, st)
  | some b =>
    match usageBump (dGet b "usage_count") with
    | Except.error e => (OpResult.error e, st)
    | Except.ok v =>
      match saveBlock st (dSet b "usage_count" v) with
      | Except.error e => (OpResult.error e, st)
      | Except.ok st' => (OpResult.ok (dSet b "usage_count" v), st')

/-- Python `str.lower()`, per-character (exact on ASCII; the sources only
lower-case ASCII text — Chinese has no case). -/
def lowerStr (s : String) : String :=
  String.mk (s.data.map Char.toLower)

/-- Split a character list on a predicate, keeping empty groups. -/
def splitOnPred (p : Char → Bool) : List Char → List (List Char)
  | [] => [[]]
  | c :: rest =>
    match splitOnPred p rest with
    | [] => [[]]
    | g :: gs => if p c then [] :: g :: gs else (c :: g) :: gs

/-- `query.lower().split()` (manager.py:188): lower-case, split on whitespace
runs, drop empty tokens. -/
def pyTokens (q : String) : List String :=
  (((splitOnPred Char.isWhitespace (lowerStr q).data).filter (fun g => g ≠ [])).map
    String.mk)

/-- `' '.join(xs)`. -/
def joinSpace (xs : List String) : String :=
  String.mk ((xs.map String.data).foldr
    (fun l acc => match acc with | [] => l | _ => l ++ ' ' :: acc) [])

/-- The search text of a block (manager.py:212):
`f"{title.lower()} {content.lower()} {' '.join(tags)}"` — the tags are joined
as stored, NOT lower-cased.  `none` models the `AttributeError`/`TypeError`
raised when `title`/`content` is present but not a string or `tags` is not a
list of strings; a missing key defaults to `''` / `[]`.  (Python's `join`
would also accept a plain string of tags, iterating its characters; stored
tags are lists, so that quirk is not modelled.) -/
def searchText (b : Obj) : Option String :=
  match dGetD b "title" (Json.str ""), dGetD b "content" (Json.str ""),
        dGetD b "tags" (Json.arr []) with
  | Json.str t, Json.str c, Json.arr tags =>
    if tags.all (fun j => match j with | Json.str _ => true | _ => false) then
      some (lowerStr t ++ " " ++ lowerStr c ++ " " ++
        joinSpace (tags.filterMap (fun j => match j with | Json.str s => some s | _ => none)))
    else none
  | _, _, _ => none

/-- The search text as the SPEC words it (spec §4.2 / claim C1): concatenation
of the lower-cased title, lower-cased content, and lower-cased tags.  This is
the claim's reading, to be compared with `searchText` from the source. -/
def specSearchText (b : Obj) : Option String :=
  match dGetD b "title" (Json.str ""), dGetD b "content" (Json.str ""),
        dGetD b "tags" (Json.arr []) with
  | Json.str t, Json.str c, Json.arr tags =>
    if tags.all (fun j => match j with | Json.str _ => true | _ => false) then
      some (lowerStr t ++ " " ++ lowerStr c ++ " " ++
        lowerStr (joinSpace (tags.filterMap
          (fun j => match j with | Json.str s => some s | _ => none))))
    else none
  | _, _, _ => none

/-- `all(term in search_text for term in search_terms)` (manager.py:215),
`false` when the search text cannot be built. -/
def termsMatch (terms : List String) (b : Obj) : Bool :=
  match searchText b with
  | some tx => terms.all (fun t => strContains tx t)
  | none => false

/-- The domain list scanned by search/export (manager.py:190-193): a truthy
`domain` argument restricts the scan, otherwise all five domains in order. -/
def scanDomains (domain : Option String) : List String :=
  match domain with
  | some d => if d = "" then knownDomains else [d]
  | none => knownDomains

/-- All blocks in the scanned domains, in domain order then listing order
(the `os.listdir` loops of manager.py:195-209 / 281-296). -/
def scannedBlocks (st : Store) (domain : Option String) : List Obj :=
  (scanDomains domain).foldr
    (fun d acc => (st.filterMap (fun e => if e.1.1 = d then some e.2 else none)) ++ acc) []

/-- The search scan loop (manager.py:200-216): build each block's search text
(raising on malformed fields), keep the blocks whose text contains every
token. -/
def searchGo (terms : List String) : List Obj → Except VErr (List Obj)
  | [] => Except.ok []
  | b :: rest =>
    match searchText b with
    | none => Except.error VErr.typeError
    | some tx =>
      match searchGo terms rest with
      | Except.error e => Except.error e
      | Except.ok rs =>
        if terms.all (fun t => strContains tx t) then Except.ok (b :: rs)
        else Except.ok rs

/-- `search_blocks` (manager.py:185-218). -/
def searchBlocks (st : Store) (q : String) (domain : Option String) :
    Except VErr (List Obj) :=
  searchGo (pyTokens q) (scannedBlocks st domain)

/-- Decimal rendering of a rational standing in for Python's `str(float)`.
Stored ratings are finite float means; the exact float decimal expansion is
not reproduced (no claim constrains it) — integral values render as Python
does (`4.0`), others as `num/den`. -/
def ratStr (q : ℚ) : String :=
  if q.den = 1 then toString q.num ++ ".0"
  else toString q.num ++ "/" ++ toString q.den

mutual

/-- Python `str(value)` as interpolated by the f-strings of `export_blocks`
(manager.py:304-310).  Container values render approximately (Python would
use element `repr`s); no stored block field that a claim touches is a
container. -/
def pyStr : Json → String
  | Json.str s => s
  | Json.int n => toString n
  | Json.num q => ratStr q
  | Json.bool b => if b then "True" else "False"
  | Json.null => "None"
  | Json.arr xs => "[" ++ pyStrList xs ++ "]"
  | Json.obj kvs => "\x7b" ++ pyStrObj kvs ++ "\x7d"

def pyStrList : List Json → String
  | [] => ""
  | [x] => pyStr x
  | x :: y :: rest => pyStr x ++ ", " ++ pyStrList (y :: rest)

def pyStrObj : List (String × Json) → String
  | [] => ""
  | [(k, v)] => k ++ ": " ++ pyStr v
  | (k, v) :: kv :: rest => k ++ ": " ++ pyStr v ++ ", " ++ pyStrObj (kv :: rest)

end

mutual

/-- A plain JSON rendering standing in for `json.dumps(..., indent=2)` of the
`json` export branch (manager.py:299).  The exact indentation/escaping of
`json.dumps` is not reproduced; no claim constrains the JSON branch's text. -/
def jsonRender : Json → String
  | Json.str s => "\"" ++ s ++ "\""
  | Json.int n => toString n
  | Json.num q => ratStr q
  | Json.bool b => if b then "true" else "false"
  | Json.null => "null"
  | Json.arr xs => "[" ++ jsonRenderList xs ++ "]"
  | Json.obj kvs => "\x7b" ++ jsonRenderObj kvs ++ "\x7d"

def jsonRenderList : List Json → String
  | [] => ""
  | [x] => jsonRender x
  | x :: y :: rest => jsonRender x ++ ", " ++ jsonRenderList (y :: rest)

def jsonRenderObj : List (String × Json) → String
  | [] => ""
  | [(k, v)] => "\"" ++ k ++ "\": " ++ jsonRender v
  | (k, v) :: kv :: rest => "\"" ++ k ++ "\": " ++ jsonRender v ++ ", " ++ jsonRenderObj (kv :: rest)

end

/-- The fixed heading of the markdown export (manager.py:302). -/
def mdHeader : String := "# Creative-Career-OS Knowledge Blocks\n\n"

/-- One markdown section per block (manager.py:303-311): title heading, ID,
domain, type, rating, usage count, content, separator, with the `dict.get`
defaults of the source. -/
def mdSection (b : Obj) : String :=
  "## " ++ pyStr (dGetD b "title" (Json.str "Untitled")) ++ "\n" ++
  "ID: " ++ pyStr (dGetD b "id" (Json.str "N/A")) ++ "\n" ++
  "Domain: " ++ pyStr (dGetD b "domain" (Json.str "N/A")) ++ "\n" ++
  "Type: " ++ pyStr (dGetD b "type" (Json.str "N/A")) ++ "\n" ++
  "Rating: " ++ pyStr (dGetD b "rating" (Json.str "N/A")) ++ "\n" ++
  "Usage: " ++ pyStr (dGetD b "usage_count" (Json.int 0)) ++ "\n\n" ++
  pyStr (dGetD b "content" (Json.str "No content")) ++ "\n\n" ++
  "---\n\n"

/-- Concatenation of a list of strings (`markdown += ...` accumulation). -/
def strJoin : List String → String
  | [] => ""
  | s :: rest => s ++ strJoin rest

/-- `export_blocks` (manager.py:276-314): collect all blocks over all domains,
then render JSON, or markdown, or raise `ValueError` for any other format. -/
def exportBlocks (st : Store) (format : String) : Except VErr String :=
  if format = "json" then
    Except.ok (jsonRender (Json.arr ((scannedBlocks st none).map Json.obj)))
  else if format = "markdown" then
    Except.ok (mdHeader ++ strJoin ((scannedBlocks st none).map mdSection))
  else Except.error (VErr.unsupportedFormat format)

/-- Modelled from the spec: `schema.json` (read by `_load_schema`,
manager.py:36-39) is not part of `src/`; its contents are reconstructed from
spec §3's data model — the core fields are required and each field carries the
primitive type listed there.  Only witnesses/counterexamples instantiate the
schema with this value; every general theorem quantifies over the schema. -/
def specSchema : Schema :=
  { required := ["id", "title", "domain", "type", "content"]
    properties :=
      [("id", some "string"), ("title", some "string"), ("domain", some "string"),
       ("type", some "string"), ("content", some "string"), ("version", some "string"),
       ("created_at", some "string"), ("updated_at", some "string"),
       ("usage_count", some "integer"), ("rating", some "number"),
       ("feedback", some "array"), ("tags", some "array"),
       ("variations", some "array"), ("examples", some "array"),
       ("related_blocks", some "array")] }

/-! ## Toolkit converter (`src/tools/toolkit-converter/converter.py`)

The converter's regular expressions are embedded as explicit scanners over a
line-structured document (`List String`, one entry per `\n`-terminated line),
faithful to the regex semantics on line-structured input. -/

/-- `\s*`: drop leading whitespace. -/
def dropWS (cs : List Char) : List Char :=
  cs.dropWhile Char.isWhitespace

/-- Match `v\d+\.\d+` at the head of the list (rest unconstrained). -/
def vPat (cs : List Char) : Bool :=
  match cs with
  | 'v' :: rest =>
    let ds := rest.takeWhile Char.isDigit
    let r₂ := rest.dropWhile Char.isDigit
    ds ≠ [] &&
      (match r₂ with
       | '.' :: r₃ => (r₃.takeWhile Char.isDigit) ≠ []
       | _ => false)
  | _ => false

/-- The lazy group of `#\s*(.+?)\s*v\d+\.\d+` (converter.py:73): the shortest
nonempty prefix after which (skipping `\s*`) the version pattern matches.
`acc` holds the group read so far, reversed. -/
def findTitleGroup : List Char → List Char → Option String
  | [], _ => none
  | c :: cs, acc =>
    if vPat (dropWS cs) then some (String.mk (c :: acc).reverse)
    else findTitleGroup cs (c :: acc)

/-- Match `^#\s*(.+?)\s*v\d+\.\d+` at the start of one line and return the
captured title (converter.py:73-74). -/
def lineTitleCapture (l : String) : Option String :=
  match l.data with
  | '#' :: rest => findTitleGroup (dropWS rest) []
  | _ => none

/-- `re.search(..., re.MULTILINE)` for the title: the first line whose start
matches; `"Untitled"` when none does (converter.py:73-74). -/
def extractTitle (lines : List String) : String :=
  (lines.findSome? lineTitleCapture).getD "Untitled"

/-- One metadata line `- \*\*[^\*]+\*\*: .+` (converter.py:78): literal
`- **`, a nonempty run without `*`, then `**: `, then a nonempty rest. -/
def isMetaLine (l : String) : Bool :=
  match l.data with
  | '-' :: ' ' :: '*' :: '*' :: rest =>
    let key := rest.takeWhile (fun c => c ≠ '*')
    let r₂ := rest.dropWhile (fun c => c ≠ '*')
    key ≠ [] &&
      (match r₂ with
       | '*' :: '*' :: ':' :: ' ' :: v => v ≠ []
       | _ => false)
  | _ => false

/-- The lines matched by `## 元信息\n(- \*\*[^\*]+\*\*: .+\n)+` starting at a
heading line: the heading plus the maximal nonempty run of metadata lines
(the heading is modelled as a whole line, its usual shape). -/
def metaRunAt (lines : List String) : Option (List String) :=
  match lines with
  | l :: rest =>
    if l = "## 元信息" && (match rest with | r :: _ => isMetaLine r | [] => false) then
      some (l :: rest.takeWhile isMetaLine)
    else none
  | [] => none

/-- `re.sub` of the metadata pattern with `''` (converter.py:88): remove every
metadata run.  Fuel-driven so that the recursion is structural (the fuel is
the line count, enough since every step consumes at least one line). -/
def removeMetaGo : Nat → List String → List String
  | 0, ls => ls
  | _ + 1, [] => []
  | n + 1, l :: rest =>
    match metaRunAt (l :: rest) with
    | some run => removeMetaGo n ((l :: rest).drop run.length)
    | none => l :: removeMetaGo n rest

def removeMetaBlocks (ls : List String) : List String :=
  removeMetaGo ls.length ls

/-- The first metadata run anywhere in the document
(`re.search` of converter.py:78-79). -/
def findMetaRun : List String → Option (List String)
  | [] => none
  | l :: rest =>
    match metaRunAt (l :: rest) with
    | some run => some run
    | none => findMetaRun rest

/-- Split at the first occurrence of `": "` (Python `line.split(': ', 1)`). -/
def splitColonSpace : List Char → Option (List Char × List Char)
  | [] => none
  | c :: cs =>
    if charsStarts (c :: cs) [':', ' '] then some ([], cs.drop 1)
    else
      match splitColonSpace cs with
      | some (k, v) => some (c :: k, v)
      | none => none

/-- Python `str.strip(chars)`: drop the given characters from both ends. -/
def stripChars (chs : List Char) (cs : List Char) : List Char :=
  ((cs.dropWhile (fun c => chs.contains c)).reverse.dropWhile
    (fun c => chs.contains c)).reverse

/-- Python `str.strip()` on a character list. -/
def trimChars (cs : List Char) : List Char :=
  (((cs.dropWhile Char.isWhitespace).reverse).dropWhile Char.isWhitespace).reverse

/-- The metadata mapping (converter.py:77-85): for every line of the matched
run containing `- **`, split at the first `": "`, strip `-`/space/`*` from the
key and whitespace from the value. -/
def extractMeta (lines : List String) : List (String × String) :=
  match findMetaRun lines with
  | none => []
  | some run =>
    run.filterMap (fun l =>
      if charsContains l.data ['-', ' ', '*', '*'] then
        match splitColonSpace l.data with
        | some (k, v) =>
          some (String.mk (stripChars ['-', ' ', '*'] k), String.mk (trimChars v))
        | none => none
      else none)

/-- Match `^#\s*.+?v\d+\.\d+` covering the WHOLE line (the pattern of
converter.py:89 is not MULTILINE and requires `\n\n` right after the version,
so the line must end at the version number). -/
def titleFullLine (l : String) : Bool :=
  match l.data with
  | '#' :: rest => tfGo (dropWS rest)
  | _ => false
where
  /-- Is there a split `group ++ spaces ++ v<digits>.<digits>` with nonempty
  group ending exactly at the end of the list? -/
  tfGo : List Char → Bool
    | [] => false
    | _ :: cs => vPatEnd (dropWS cs) || tfGo cs
  vPatEnd : List Char → Bool
    | 'v' :: rest =>
      let ds := rest.takeWhile Char.isDigit
      let r₂ := rest.dropWhile Char.isDigit
      ds ≠ [] &&
        (match r₂ with
         | '.' :: r₃ => r₃ ≠ [] && r₃.all Char.isDigit
         | _ => false)
    | _ => false

/-- `re.sub(r'^#\s*.+?v\d+\.\d+\n\n', '', ...)` (converter.py:89): drop the
title line and the following blank line when they open the document. -/
def stripTitleHead (ls : List String) : List String :=
  match ls with
  | l₀ :: "" :: rest => if titleFullLine l₀ then rest else ls
  | _ => ls

/-- Re-join lines into the file text (each line `\n`-terminated, as read by
`f.read()` from a file ending in a newline). -/
def joinLines (ls : List String) : String :=
  String.mk ((ls.map String.data).foldr (fun l acc => l ++ '\n' :: acc) [])

/-- `domain_map` (converter.py:22-30). -/
def domainMap : List (String × String) :=
  [("主动", "proactive"), ("关系", "relationship"), ("合同", "defense"),
   ("心智", "mindset"), ("报价", "defense"), ("效率", "efficiency"),
   ("沟通", "defense")]

/-- `type_map` (converter.py:33-57). -/
def typeMap : List (String × String) :=
  [("个人品牌建设", "module"), ("从执行到顾问", "guide"), ("价值定价策略", "tool"),
   ("内容营销策略", "module"), ("客户开发策略", "module"), ("同行网络建设", "module"),
   ("长期客户维护", "module"), ("付款节点设置", "tool"), ("修改次数限制", "tool"),
   ("著作权归属界定", "tool"), ("违约责任界定", "tool"), ("内在动力建设", "module"),
   ("决策框架", "tool"), ("成长型思维", "module"), ("抗压能力与职业倦怠预防", "module"),
   ("低价竞争应对", "tool"), ("应对无预算试探", "tool"), ("紧急项目加价", "tool"),
   ("工作流程标准化", "module"), ("时间管理与精力分配", "module"), ("客户拖延付款", "tool"),
   ("应对免费试稿", "tool"), ("项目范围蔓延", "tool")]

/-- `dict.get(key, default)` on the static maps. -/
def mapGetD (m : List (String × String)) (k dflt : String) : String :=
  ((m.find? (fun kv => kv.1 = k)).map Prod.snd).getD dflt

/-- The record emitted by `parse_toolkit` (converter.py:98-117). -/
structure ConvBlock where
  id : String
  title : String
  type : String
  domain : String
  subdomain : String
  content : String
  context : String
  tags : List String
  version : String
  usage_count : ℤ
  rating : ℚ
  createdAt : String
  updatedAt : String

/-- `parse_toolkit` (converter.py:67-119) on a line-structured document.
`gid` stands for `generate_id(title)` and `nowc` for the
`datetime.datetime.now().isoformat()` stamps.  `title.split('-')[1]` raises
`IndexError` when the title has no `-`. -/
def parseToolkit (lines : List String) (gid nowc : String) : Except VErr ConvBlock :=
  let title := extractTitle lines
  let metaInfo := extractMeta lines
  let core := joinLines (stripTitleHead (removeMetaBlocks lines))
  match splitOnChar '-' title.data with
  | p₀ :: p₁ :: _ =>
    let domainKey := String.mk (trimChars p₀)
    let typeKey := String.mk (trimChars p₁)
    Except.ok
      { id := gid
        title := title
        type := mapGetD typeMap typeKey "module"
        domain := mapGetD domainMap domainKey "defense"
        subdomain := typeKey
        content := core
        context := (((metaInfo.find? (fun kv => kv.1 = "适用场景")).map Prod.snd).getD "")
        tags := [domainKey, typeKey]
        version := "1.0"
        usage_count := 0
        rating := 0
        createdAt := nowc
        updatedAt := nowc }
  | _ => Except.error VErr.indexError

/-- A store is well formed when every file `<domain>/<id>.json` holds a record
whose own `id` and `domain` fields name exactly that path — the invariant of
spec §3 ("a block's on-disk location is fully determined by `(domain, id)`"),
which `_save_block` maintains because it derives the path from the record. -/
def storeWFb : Store → Bool
  | [] => true
  | ((d, i), b) :: rest => isStrVal b "id" i && isStrVal b "domain" d && storeWFb rest

/-! ## Concrete fixtures used by witnesses and counterexamples -/

/-- A schema-complete block in the `efficiency` domain whose tag is the
upper-case string `"EFFICIENCY"`. -/
def bC1 : Obj :=
  [("id", Json.str "b1"), ("domain", Json.str "efficiency"),
   ("type", Json.str "module"), ("title", Json.str "Daily workflow"),
   ("content", Json.str "standardize the steps"),
   ("tags", Json.arr [Json.str "EFFICIENCY"])]

def stC1 : Store := [(("efficiency", "b1"), bC1)]

/-- A schema-complete block at version `"1.0"`. -/
def bC2 : Obj :=
  [("id", Json.str "b2"), ("domain", Json.str "defense"),
   ("type", Json.str "tool"), ("title", Json.str "Quoting"),
   ("content", Json.str "value pricing"), ("version", Json.str "1.0")]

def stC2 : Store := [(("defense", "b2"), bC2)]

/-- A block with one prior feedback entry rated 3 and rating still 0.0. -/
def bC3 : Obj :=
  [("id", Json.str "b3"), ("domain", Json.str "mindset"),
   ("rating", Json.num 0),
   ("feedback", Json.arr [Json.obj [("rating", Json.int 3)]])]

def stC3 : Store := [(("mindset", "b3"), bC3)]

/-- The feedback sequence of `bC3` after appending an entry rated 5. -/
def entC3 : List Json :=
  [Json.obj [("rating", Json.int 3)],
   Json.obj [("rating", Json.int 5), ("id", Json.str "f3"), ("date", Json.str "T1")]]

/-- The rating values `ratingsOf entC3` collects. -/
def qC3 : List ℚ := [((3 : ℤ) : ℚ), ((5 : ℤ) : ℚ)]

/-- `bC2` after one update at time `"T1"`. -/
def bC2v1 : Obj :=
  [("id", Json.str "b2"), ("domain", Json.str "defense"),
   ("type", Json.str "tool"), ("title", Json.str "Quoting"),
   ("content", Json.str "value pricing"), ("version", Json.str "1.1"),
   ("updated_at", Json.str "T1")]

def stC2v1 : Store := [(("defense", "b2"), bC2v1)]

def bC4 : Obj :=
  [("id", Json.str "b4"), ("domain", Json.str "proactive"),
   ("type", Json.str "module"), ("title", Json.str "Outreach"),
   ("content", Json.str "plan"), ("version", Json.str "1.0"),
   ("usage_count", Json.int 0)]

def stC4 : Store := [(("proactive", "b4"), bC4)]

/-- A block whose `updated_at` stamp is `"T0"`. -/
def bC5 : Obj :=
  [("id", Json.str "b5"), ("domain", Json.str "defense"),
   ("created_at", Json.str "T0"), ("updated_at", Json.str "T0"),
   ("usage_count", Json.int 0), ("feedback", Json.arr [])]

def stC5 : Store := [(("defense", "b5"), bC5)]

def stC6 : Store := [(("defense", "b6"),
  [("id", Json.str "b6"), ("domain", Json.str "defense"),
   ("type", Json.str "tool"), ("title", Json.str "T"),
   ("content", Json.str "C"), ("version", Json.str "1.0")])]

/-- Two well-formed blocks sharing the id `"x"` in two different domains —
both creatable through `create_block` by passing an explicit id. -/
def bC7d : Obj :=
  [("id", Json.str "x"), ("domain", Json.str "defense"),
   ("title", Json.str "first"), ("content", Json.str "one")]

def bC7p : Obj :=
  [("id", Json.str "x"), ("domain", Json.str "proactive"),
   ("title", Json.str "second"), ("content", Json.str "two")]

def stC7 : Store := [(("defense", "x"), bC7d), (("proactive", "x"), bC7p)]

/-- A single-domain store for the amended delete contract. -/
def stC7w : Store := [(("mindset", "y"),
  [("id", Json.str "y"), ("domain", Json.str "mindset"),
   ("title", Json.str "only"), ("content", Json.str "block")])]

def stC8 : Store := [(("defense", "b8"),
  [("id", Json.str "b8"), ("domain", Json.str "defense"),
   ("type", Json.str "tool"), ("title", Json.str "Hi"),
   ("content", Json.str "Body"), ("rating", Json.num 0),
   ("usage_count", Json.int 0)])]

/-- The toolkit source document of spec §8's converter property, line by line
(`报价-价值定价策略 v1.0` with a metadata block and a body). -/
def doc9 : List String :=
  ["# 报价-价值定价策略 v1.0", "", "## 元信息",
   "- **适用场景**: 报价谈判与价值沟通", "", "## 核心内容", "定价基于价值而非成本。"]

def bC10 : Obj :=
  [("id", Json.str "b10"), ("domain", Json.str "relationship"),
   ("title", Json.str "Networking"), ("content", Json.str "peers"),
   ("tags", Json.arr [Json.str "people"])]

def stC10 : Store := [(("relationship", "b10"), bC10)]

/-! ## Basic dictionary and store lemmas -/

theorem dGet_dSet_self (o : Obj) (k : String) (v : Json) :
    dGet (dSet o k v) k = some v := by
  induction o with
  | nil => simp [dGet, dSet]
  | cons kv rest ih =>
    obtain ⟨k₀, v₀⟩ := kv
    by_cases h : k₀ = k <;> simp [dGet, dSet, h, ih]

theorem dGet_dSet_ne (o : Obj) (k k' : String) (v : Json) (h : k ≠ k') :
    dGet (dSet o k v) k' = dGet o k' := by
  induction o with
  | nil => simp [dGet, dSet, h]
  | cons kv rest ih =>
    obtain ⟨k₀, v₀⟩ := kv
    by_cases h₀ : k₀ = k
    · subst h₀; simp [dGet, dSet, h]
    · simp only [dSet, if_neg h₀]
      by_cases h₁ : k₀ = k' <;> simp [dGet, h₁, ih]

theorem dGet_eq_none_of_not_mem (o : Obj) (k : String)
    (h : ∀ v, (k, v) ∉ o) : dGet o k = none := by
  induction o with
  | nil => rfl
  | cons kv rest ih =>
    obtain ⟨k₀, v₀⟩ := kv
    have hne : k₀ ≠ k := by
      intro hk; subst hk; exact h v₀ (List.mem_cons_self _ _)
    simp only [dGet, if_neg hne]
    exact ih (fun v hv => h v (List.mem_cons_of_mem _ hv))

theorem not_mem_of_dGet_eq_none (o : Obj) (k : String)
    (h : dGet o k = none) : ∀ v, (k, v) ∉ o := by
  induction o with
  | nil => simp
  | cons kv rest ih =>
    obtain ⟨k₀, v₀⟩ := kv
    by_cases hk : k₀ = k
    · simp [dGet, hk] at h
    · intro v hv
      rcases List.mem_cons.mp hv with h₁ | h₁
      · exact hk (congrArg Prod.fst h₁).symm
      · simp only [dGet, if_neg hk] at h
        exact ih h v h₁

theorem dictUpdate_dGet_absent (u : Obj) (b : Obj) (k : String)
    (h : dGet u k = none) : dGet (dictUpdate b u) k = dGet b k := by
  induction u generalizing b with
  | nil => rfl
  | cons kv rest ih =>
    obtain ⟨k₀, v₀⟩ := kv
    by_cases hk : k₀ = k
    · simp [dGet, hk] at h
    · simp only [dGet, if_neg hk] at h
      show dGet (dictUpdate (dSet b k₀ v₀) rest) k = dGet b k
      rw [ih (dSet b k₀ v₀) h, dGet_dSet_ne _ _ _ _ hk]

theorem dictUpdate_dGet_mem (u : Obj) (b : Obj) (k : String) (v : Json)
    (hnd : (u.map Prod.fst).Nodup) (hmem : (k, v) ∈ u) :
    dGet (dictUpdate b u) k = some v := by
  induction u generalizing b with
  | nil => simp at hmem
  | cons kv rest ih =>
    obtain ⟨k₀, v₀⟩ := kv
    simp only [List.map_cons, List.nodup_cons] at hnd
    rcases List.mem_cons.mp hmem with h₁ | h₁
    · obtain ⟨hk, hv⟩ := Prod.mk.injEq .. ▸ h₁
      subst hk; subst hv
      show dGet (dictUpdate (dSet b k v) rest) k = some v
      have habs : dGet rest k = none := by
        apply dGet_eq_none_of_not_mem
        intro w hw
        exact hnd.1 (List.mem_map.mpr ⟨(k, w), hw, rfl⟩)
      rw [dictUpdate_dGet_absent rest _ k habs, dGet_dSet_self]
    · exact ih (dSet b k₀ v₀) hnd.2 h₁

theorem storeGet_mem {st : Store} {d i : String} {b : Obj}
    (h : storeGet st d i = some b) : ((d, i), b) ∈ st := by
  induction st with
  | nil => simp [storeGet] at h
  | cons e rest ih =>
    obtain ⟨⟨d₀, i₀⟩, b₀⟩ := e
    simp only [storeGet] at h
    by_cases hk : d₀ = d ∧ i₀ = i
    · rw [if_pos hk] at h
      injection h with h
      obtain ⟨h₁, h₂⟩ := hk
      subst h₁; subst h₂; subst h
      exact List.mem_cons_self _ _
    · rw [if_neg hk] at h
      exact List.mem_cons_of_mem _ (ih h)

theorem storeGet_storeSet_self (st : Store) (k : String × String) (b : Obj) :
    storeGet (storeSet st k b) k.1 k.2 = some b := by
  induction st with
  | nil => simp [storeGet, storeSet]
  | cons e rest ih =>
    obtain ⟨k₀, b₀⟩ := e
    by_cases hk : k₀ = k
    · simp [storeSet, hk, storeGet]
    · simp only [storeSet, if_neg hk]
      have : ¬(k₀.1 = k.1 ∧ k₀.2 = k.2) := by
        intro ⟨h₁, h₂⟩; exact hk (Prod.ext h₁ h₂)
      simp only [storeGet, if_neg this]
      exact ih

theorem storeGet_storeSet_ne (st : Store) (k : String × String) (b : Obj)
    (d i : String) (h : ¬(k.1 = d ∧ k.2 = i)) :
    storeGet (storeSet st k b) d i = storeGet st d i := by
  induction st with
  | nil => simp [storeGet, storeSet, h]
  | cons e rest ih =>
    obtain ⟨k₀, b₀⟩ := e
    by_cases hk : k₀ = k
    · subst hk
      simp only [storeSet, if_pos rfl]
      simp only [storeGet, if_neg h]
    · simp only [storeSet, if_neg hk]
      by_cases hd : k₀.1 = d ∧ k₀.2 = i <;> simp [storeGet, hd, ih]

theorem storeGet_storeSet_isSome (st : Store) (k : String × String) (b : Obj)
    (d i : String) (h : (storeGet st d i).isSome) :
    (storeGet (storeSet st k b) d i).isSome := by
  by_cases hk : k.1 = d ∧ k.2 = i
  · have : k = (d, i) := Prod.ext hk.1 hk.2
    subst this
    rw [storeGet_storeSet_self]
    rfl
  · rwa [storeGet_storeSet_ne st k b d i hk]

theorem storeGet_storeDel_self (st : Store) (d i : String) :
    storeGet (storeDel st d i) d i = none := by
  induction st with
  | nil => rfl
  | cons e rest ih =>
    obtain ⟨⟨d₀, i₀⟩, b₀⟩ := e
    simp only [storeDel]
    by_cases hk : d₀ = d ∧ i₀ = i
    · rw [if_pos hk]; exact ih
    · rw [if_neg hk]
      simp only [storeGet, if_neg hk]
      exact ih

theorem storeGet_storeDel_ne (st : Store) (d i d' i' : String)
    (h : ¬(d' = d ∧ i' = i)) :
    storeGet (storeDel st d i) d' i' = storeGet st d' i' := by
  induction st with
  | nil => rfl
  | cons e rest ih =>
    obtain ⟨⟨d₀, i₀⟩, b₀⟩ := e
    simp only [storeDel]
    by_cases hk : d₀ = d ∧ i₀ = i
    · rw [if_pos hk]
      have hne : ¬(d₀ = d' ∧ i₀ = i') := by
        intro ⟨h₁, h₂⟩
        exact h ⟨h₁.symm.trans hk.1, h₂.symm.trans hk.2⟩
      simp only [storeGet, if_neg hne]
      exact ih
    · rw [if_neg hk]
      by_cases hd : d₀ = d' ∧ i₀ = i'
      · simp only [storeGet, if_pos hd]
      · simp only [storeGet, if_neg hd]; exact ih

/-! ## Substring lemmas -/

theorem charsStarts_refl_append (pat rest : List Char) :
    charsStarts (pat ++ rest) pat = true := by
  induction pat with
  | nil => cases rest <;> rfl
  | cons c cs ih => simp [charsStarts, ih]

theorem charsContains_of_suffix (a b pat : List Char)
    (h : charsContains b pat = true) : charsContains (a ++ b) pat = true := by
  induction a with
  | nil => exact h
  | cons c cs ih =>
    show (charsStarts (c :: (cs ++ b)) pat || charsContains (cs ++ b) pat) = true
    rw [ih]
    exact Bool.or_true _

theorem charsContains_head (pat rest : List Char) :
    charsContains (pat ++ rest) pat = true := by
  cases pat with
  | nil => cases rest <;> rfl
  | cons c cs =>
    show (charsStarts ((c :: cs) ++ rest) (c :: cs) || _) = true
    rw [charsStarts_refl_append]
    rfl

/-- A string built as `pre ++ pat ++ post` contains `pat`. -/
theorem strContains_of_parts (hay pre pat post : String)
    (h : hay.data = pre.data ++ (pat.data ++ post.data)) :
    strContains hay pat = true := by
  unfold strContains
  rw [h]
  exact charsContains_of_suffix _ _ _ (charsContains_head _ _)

/-! ## Search scan lemmas -/

theorem searchGo_eq_filter (terms : List String) (bs : List Obj)
    (h : ∀ b ∈ bs, (searchText b).isSome) :
    searchGo terms bs = Except.ok (bs.filter (termsMatch terms)) := by
  induction bs with
  | nil => rfl
  | cons b rest ih =>
    have hb : (searchText b).isSome := h b (List.mem_cons_self _ _)
    obtain ⟨tx, htx⟩ := Option.isSome_iff_exists.mp hb
    have hrest := ih (fun b' hb' => h b' (List.mem_cons_of_mem _ hb'))
    simp only [searchGo, htx, hrest, List.filter, termsMatch]
    by_cases hall : terms.all (fun t => strContains tx t) = true
    · rw [hall]; simp
    · rw [Bool.not_eq_true] at hall
      rw [hall]; simp

/-! ## Well-formedness lemmas -/

theorem storeWFb_mem {st : Store} {d i : String} {b : Obj}
    (hwf : storeWFb st = true) (hmem : ((d, i), b) ∈ st) :
    isStrVal b "id" i = true ∧ isStrVal b "domain" d = true := by
  induction st with
  | nil => simp at hmem
  | cons e rest ih =>
    obtain ⟨⟨d₀, i₀⟩, b₀⟩ := e
    simp only [storeWFb, Bool.and_eq_true] at hwf
    rcases List.mem_cons.mp hmem with h₁ | h₁
    · obtain ⟨hk, hb⟩ := Prod.mk.injEq .. ▸ h₁
      obtain ⟨hd, hi⟩ := Prod.mk.injEq .. ▸ hk
      subst hd; subst hi; subst hb
      exact ⟨hwf.1.1, hwf.1.2⟩
    · exact ih hwf.2 h₁

theorem storeWFb_storeSet {st : Store} {d i : String} {b : Obj}
    (hwf : storeWFb st = true)
    (hid : isStrVal b "id" i = true) (hdom : isStrVal b "domain" d = true) :
    storeWFb (storeSet st (d, i) b) = true := by
  induction st with
  | nil => simp [storeSet, storeWFb, hid, hdom]
  | cons e rest ih =>
    obtain ⟨⟨d₀, i₀⟩, b₀⟩ := e
    simp only [storeWFb, Bool.and_eq_true] at hwf
    by_cases hk : (d₀, i₀) = (d, i)
    · simp only [storeSet, if_pos hk, storeWFb, hid, hdom, Bool.true_and]
      exact hwf.2
    · simp only [storeSet, if_neg hk, storeWFb, Bool.and_eq_true]
      exact ⟨hwf.1, ih hwf.2⟩

theorem storeWFb_saveBlock {st st' : Store} {o : Obj}
    (hwf : storeWFb st = true) (h : saveBlock st o = Except.ok st') :
    storeWFb st' = true := by
  unfold saveBlock at h
  split at h <;> try cases h
  split at h <;> try cases h
  split at h
  · injection h with h
    subst h
    refine storeWFb_storeSet hwf ?_ ?_ <;> simp_all [isStrVal]
  · cases h

theorem getBlock_some_storeGet {st : Store} {i : String} {dom : Option String}
    {b : Obj} (h : getBlock st i dom = some b) :
    ∃ d, storeGet st d i = some b := by
  cases dom with
  | none =>
    simp only [getBlock] at h
    obtain ⟨d, _, hd⟩ := List.exists_of_findSome?_eq_some h
    exact ⟨d, hd⟩
  | some d =>
    simp only [getBlock] at h
    by_cases hne : d = ""
    · rw [if_pos hne] at h
      obtain ⟨d₀, _, hd⟩ := List.exists_of_findSome?_eq_some h
      exact ⟨d₀, hd⟩
    · rw [if_neg hne] at h
      exact ⟨d, h⟩

/-- In a well-formed store, any block `get_block` returns under an id carries
that id (and its domain names its directory). -/
theorem getBlock_wf_fields {st : Store} {i : String} {dom : Option String}
    {b : Obj} (hwf : storeWFb st = true) (h : getBlock st i dom = some b) :
    isStrVal b "id" i = true ∧ ∃ d, isStrVal b "domain" d = true ∧
      storeGet st d i = some b := by
  obtain ⟨d, hd⟩ := getBlock_some_storeGet h
  have hm := storeWFb_mem hwf (storeGet_mem hd)
  exact ⟨hm.1, d, hm.2, hd⟩

/-! ## Operation shape lemmas -/

theorem lookupTruthy_some {st : Store} {i : String} {b : Obj}
    (h : lookupTruthy st i = some b) :
    getBlock st i none = some b ∧ b.isEmpty = false := by
  unfold lookupTruthy at h
  split at h
  · cases h
  next b₀ hg =>
    split at h
    · cases h
    next hne =>
      injection h with h
      subst h
      exact ⟨hg, by simpa using hne⟩

theorem lookupTruthy_of_get {st : Store} {i : String} {b : Obj}
    (hg : getBlock st i none = some b) (hne : b.isEmpty = false) :
    lookupTruthy st i = some b := by
  simp [lookupTruthy, hg, hne]

theorem lookupTruthy_of_get_none {st : Store} {i : String}
    (hg : getBlock st i none = none) : lookupTruthy st i = none := by
  simp [lookupTruthy, hg]

theorem dGet_some_not_isEmpty {b : Obj} {k : String} {v : Json}
    (h : dGet b k = some v) : b.isEmpty = false := by
  cases b with
  | nil => cases h
  | cons kv rest => rfl

theorem saveBlock_ok_shape {st st' : Store} {o : Obj}
    (h : saveBlock st o = Except.ok st') :
    ∃ d i, dGet o "domain" = some (Json.str d) ∧ dGet o "id" = some (Json.str i) ∧
      st' = storeSet st (d, i) o := by
  unfold saveBlock at h
  split at h <;> try cases h
  split at h <;> try cases h
  split at h
  · injection h with h
    exact ⟨_, _, by assumption, by assumption, h.symm⟩
  · cases h

theorem updateBlock_ok_shape {sc : Schema} {st st₂ : Store} {i now : String}
    {upd : Obj} {b' : Obj}
    (h : updateBlock sc st i upd now = (OpResult.ok b', st₂)) :
    ∃ b, lookupTruthy st i = some b ∧
      versionBump (mergedBlock b upd now) = Except.ok b' ∧
      validateBlock sc b' = none ∧ saveBlock st b' = Except.ok st₂ := by
  unfold updateBlock at h
  split at h
  · cases h
  next b hb =>
    split at h
    · cases h
    next m hm =>
      split at h
      · cases h
      next hv =>
        split at h
        · cases h
        next st' hs =>
          obtain ⟨h₁, h₂⟩ := Prod.mk.injEq .. ▸ h
          injection h₁ with h₁
          subst h₁; subst h₂
          exact ⟨b, hb, hm, hv, hs⟩

theorem updateBlock_error_store {sc : Schema} {st : Store} {i now : String}
    {upd : Obj} {e : VErr}
    (h : (updateBlock sc st i upd now).1 = OpResult.error e) :
    (updateBlock sc st i upd now).2 = st := by
  unfold updateBlock at h ⊢
  split <;> split at h <;> simp_all
  all_goals (split <;> split at h <;> simp_all)
  all_goals (split <;> split at h <;> simp_all)
  all_goals (split <;> split at h <;> simp_all)

theorem createBlock_error_store {sc : Schema} {genId now : String}
    {data : Obj} {st : Store} {e : VErr}
    (h : (createBlock sc genId now data st).1 = Except.error e) :
    (createBlock sc genId now data st).2 = st := by
  unfold createBlock at h ⊢
  split <;> split at h <;> simp_all
  all_goals (split <;> split at h <;> simp_all)
  all_goals (split <;> split at h <;> simp_all)

theorem addFeedback_ok_shape {st st₂ : Store} {i fbId now : String}
    {fb : Obj} {b' : Obj}
    (h : addFeedback st i fb fbId now = (OpResult.ok b', st₂)) :
    ∃ b b₁ entries qs, lookupTruthy st i = some b ∧
      feedbackAppend b (dSet (dSet fb "id" (Json.str fbId)) "date" (Json.str now)) =
        Except.ok (b₁, entries) ∧
      ratingsOf entries = Except.ok qs ∧
      b' = withRating b₁ qs ∧
      saveBlock st b' = Except.ok st₂ := by
  unfold addFeedback at h
  split at h
  · cases h
  next b hb =>
    split at h
    · cases h
    next b₁ entries hfa =>
      split at h
      · cases h
      next qs hqs =>
        split at h
        · cases h
        next st' hs =>
          obtain ⟨h₁, h₂⟩ := Prod.mk.injEq .. ▸ h
          injection h₁ with h₁
          subst h₁; subst h₂
          exact ⟨b, b₁, entries, qs, hb, hfa, hqs, rfl, hs⟩

theorem incrementUsage_ok_shape {st st₂ : Store} {i : String} {b' : Obj}
    (h : incrementUsage st i = (OpResult.ok b', st₂)) :
    ∃ b v, lookupTruthy st i = some b ∧
      usageBump (dGet b "usage_count") = Except.ok v ∧
      b' = dSet b "usage_count" v ∧ saveBlock st b' = Except.ok st₂ := by
  unfold incrementUsage at h
  split at h
  · cases h
  next b hb =>
    split at h
    · cases h
    next v hv =>
      split at h
      · cases h
      next st' hs =>
        obtain ⟨h₁, h₂⟩ := Prod.mk.injEq .. ▸ h
        injection h₁ with h₁
        subst h₁; subst h₂
        exact ⟨b, v, hb, hv, rfl, hs⟩

theorem feedbackAppend_ok_shape {b b₁ : Obj} {fb : Obj} {entries : List Json}
    (h : feedbackAppend b fb = Except.ok (b₁, entries)) :
    b₁ = dSet b "feedback" (Json.arr entries) ∧
      (∃ old, entries = old ++ [Json.obj fb]) := by
  unfold feedbackAppend at h
  split at h <;> try cases h
  · exact ⟨rfl, [], rfl⟩
  · next xs _ => exact ⟨rfl, xs, rfl⟩

theorem isStrVal_iff {o : Obj} {k s : String} :
    isStrVal o k s = true ↔ dGet o k = some (Json.str s) := by
  unfold isStrVal
  cases h : dGet o k with
  | none => simp
  | some v => cases v <;> simp

theorem getBlock_none_some {st : Store} {i : String} {b : Obj}
    (h : getBlock st i none = some b) :
    ∃ d ∈ knownDomains, storeGet st d i = some b := by
  simp only [getBlock] at h
  exact List.exists_of_findSome?_eq_some h

theorem getBlock_isSome_storeSet (st : Store) (k : String × String) (o : Obj)
    (i : String) (h : (getBlock st i none).isSome) :
    (getBlock (storeSet st k o) i none).isSome := by
  obtain ⟨b, hb⟩ := Option.isSome_iff_exists.mp h
  obtain ⟨d, hdm, hd⟩ := getBlock_none_some hb
  rw [Option.isSome_iff_ne_none]
  simp only [getBlock]
  intro hnone
  have := List.findSome?_eq_none_iff.mp hnone d hdm
  have hs : (storeGet (storeSet st k o) d i).isSome :=
    storeGet_storeSet_isSome st k o d i (by rw [hd]; rfl)
  rw [this] at hs
  cases hs

theorem updateBlock_store_wf {sc : Schema} {st : Store} {i now : String}
    {upd : Obj} (hwf : storeWFb st = true) :
    storeWFb (updateBlock sc st i upd now).2 = true := by
  unfold updateBlock
  split
  · exact hwf
  split
  · exact hwf
  split
  · exact hwf
  split
  · exact hwf
  next hs => exact storeWFb_saveBlock hwf hs

theorem addFeedback_store_wf {st : Store} {i fbId now : String} {fb : Obj}
    (hwf : storeWFb st = true) :
    storeWFb (addFeedback st i fb fbId now).2 = true := by
  unfold addFeedback
  split
  · exact hwf
  split
  · exact hwf
  split
  · exact hwf
  split
  · exact hwf
  next hs => exact storeWFb_saveBlock hwf hs

theorem incrementUsage_store_wf {st : Store} {i : String}
    (hwf : storeWFb st = true) :
    storeWFb (incrementUsage st i).2 = true := by
  unfold incrementUsage
  split
  · exact hwf
  split
  · exact hwf
  split
  · exact hwf
  next hs => exact storeWFb_saveBlock hwf hs

theorem updateBlock_store_shape (sc : Schema) (st : Store) (i now : String)
    (upd : Obj) :
    (updateBlock sc st i upd now).2 = st ∨
    ∃ k m, (updateBlock sc st i upd now).2 = storeSet st k m := by
  unfold updateBlock
  split
  · exact Or.inl rfl
  split
  · exact Or.inl rfl
  split
  · exact Or.inl rfl
  split
  · exact Or.inl rfl
  next hs =>
    obtain ⟨d, j, _, _, hst⟩ := saveBlock_ok_shape hs
    exact Or.inr ⟨(d, j), _, hst⟩

theorem addFeedback_store_shape (st : Store) (i fbId now : String) (fb : Obj) :
    (addFeedback st i fb fbId now).2 = st ∨
    ∃ k m, (addFeedback st i fb fbId now).2 = storeSet st k m := by
  unfold addFeedback
  split
  · exact Or.inl rfl
  split
  · exact Or.inl rfl
  split
  · exact Or.inl rfl
  split
  · exact Or.inl rfl
  next hs =>
    obtain ⟨d, j, _, _, hst⟩ := saveBlock_ok_shape hs
    exact Or.inr ⟨(d, j), _, hst⟩

theorem incrementUsage_store_shape (st : Store) (i : String) :
    (incrementUsage st i).2 = st ∨
    ∃ k m, (incrementUsage st i).2 = storeSet st k m := by
  unfold incrementUsage
  split
  · exact Or.inl rfl
  split
  · exact Or.inl rfl
  split
  · exact Or.inl rfl
  next hs =>
    obtain ⟨d, j, _, _, hst⟩ := saveBlock_ok_shape hs
    exact Or.inr ⟨(d, j), _, hst⟩

theorem versionBump_of_parse {o : Obj} {v : String} {ma mi : ℤ}
    (hv : dGet o "version" = some (Json.str v))
    (hp : parseVersion v = some (ma, mi)) :
    versionBump o = Except.ok (dSet o "version" (Json.str (formatVersion ma (mi + 1)))) := by
  unfold versionBump
  rw [hv]
  simp only [hp]

theorem versionBump_frame {o o' : Obj} {k : String}
    (h : versionBump o = Except.ok o') (hk : k ≠ "version") :
    dGet o' k = dGet o k := by
  unfold versionBump at h
  split at h <;> try cases h
  · rfl
  · next hp =>
    split at h <;> try cases h
    next ma mi _ =>
      exact dGet_dSet_ne _ _ _ _ (fun hh => hk hh.symm)

theorem mergedBlock_updated_at (b upd : Obj) (now : String) :
    dGet (mergedBlock b upd now) "updated_at" = some (Json.str now) :=
  dGet_dSet_self _ _ _

theorem mergedBlock_frame_absent (b upd : Obj) (now k : String)
    (hk : k ≠ "updated_at") (h : dGet upd k = none) :
    dGet (mergedBlock b upd now) k = dGet b k := by
  unfold mergedBlock
  rw [dGet_dSet_ne _ _ _ _ (fun hh => hk hh.symm)]
  exact dictUpdate_dGet_absent _ _ _ h

theorem mergedBlock_of_mem (b upd : Obj) (now k : String) (v : Json)
    (hk : k ≠ "updated_at") (hnd : (upd.map Prod.fst).Nodup)
    (hmem : (k, v) ∈ upd) :
    dGet (mergedBlock b upd now) k = some v := by
  unfold mergedBlock
  rw [dGet_dSet_ne _ _ _ _ (fun hh => hk hh.symm)]
  exact dictUpdate_dGet_mem _ _ _ _ hnd hmem

theorem dGet_setDefault_ne (o : Obj) (k : String) (v : Json) (k' : String)
    (h : k ≠ k') : dGet (setDefault o k v) k' = dGet o k' := by
  unfold setDefault
  split
  · rfl
  · exact dGet_dSet_ne _ _ _ _ h

theorem withDefaults_created_at {o : Obj} (now : String)
    (h : dGet o "created_at" = none) :
    dGet (withDefaults o now) "created_at" = some (Json.str now) := by
  simp only [withDefaults]
  rw [dGet_setDefault_ne _ _ _ _ (by decide), dGet_setDefault_ne _ _ _ _ (by decide),
      dGet_setDefault_ne _ _ _ _ (by decide), dGet_setDefault_ne _ _ _ _ (by decide),
      dGet_setDefault_ne _ _ _ _ (by decide), dGet_setDefault_ne _ _ _ _ (by decide),
      dGet_setDefault_ne _ _ _ _ (by decide), dGet_setDefault_ne _ _ _ _ (by decide),
      dGet_dSet_ne _ _ _ _ (by decide)]
  rw [if_neg (show ¬((dGet o "created_at").isSome = true) by rw [h]; simp)]
  exact dGet_dSet_self _ _ _

theorem withDefaults_updated_at (o : Obj) (now : String) :
    dGet (withDefaults o now) "updated_at" = some (Json.str now) := by
  simp only [withDefaults]
  rw [dGet_setDefault_ne _ _ _ _ (by decide), dGet_setDefault_ne _ _ _ _ (by decide),
      dGet_setDefault_ne _ _ _ _ (by decide), dGet_setDefault_ne _ _ _ _ (by decide),
      dGet_setDefault_ne _ _ _ _ (by decide), dGet_setDefault_ne _ _ _ _ (by decide),
      dGet_setDefault_ne _ _ _ _ (by decide), dGet_setDefault_ne _ _ _ _ (by decide)]
  exact dGet_dSet_self _ _ _

theorem createBlock_ok_shape {sc : Schema} {genId now : String} {data : Obj}
    {st st₂ : Store} {bc : Obj}
    (h : createBlock sc genId now data st = (Except.ok bc, st₂)) :
    ∃ d₁, withId data genId = Except.ok d₁ ∧ bc = withDefaults d₁ now ∧
      validateBlock sc bc = none ∧ saveBlock st bc = Except.ok st₂ := by
  unfold createBlock at h
  split at h
  · cases h
  next d₁ hw =>
    split at h
    · cases h
    next hv =>
      split at h
      · cases h
      next st' hs =>
        obtain ⟨h₁, h₂⟩ := Prod.mk.injEq .. ▸ h
        injection h₁ with h₁
        subst h₂
        exact ⟨d₁, hw, h₁.symm, h₁ ▸ hv, h₁ ▸ hs⟩

theorem termsMatch_nil {b : Obj} (h : (searchText b).isSome) :
    termsMatch [] b = true := by
  obtain ⟨tx, htx⟩ := Option.isSome_iff_exists.mp h
  simp [termsMatch, htx]

/-! ## Claim theorems -/

/-- C1 (amended): `search(query, domain?)` returns exactly the scanned blocks
for which every whitespace-separated lower-cased query token occurs as a
substring of `lower(title) ++ " " ++ lower(content) ++ " " ++ tags joined by
spaces` — with the tags joined AS STORED, not lower-cased (manager.py:212) —
provided every scanned block has string title/content and string-list tags
(otherwise the source raises). -/
theorem C1_search_token_characterization (st : Store) (q : String)
    (dom : Option String)
    (h : ∀ b ∈ scannedBlocks st dom, (searchText b).isSome) :
    searchBlocks st q dom =
      Except.ok ((scannedBlocks st dom).filter (termsMatch (pyTokens q))) ∧
    ∀ b, (b ∈ (scannedBlocks st dom).filter (termsMatch (pyTokens q)) ↔
      b ∈ scannedBlocks st dom ∧ termsMatch (pyTokens q) b = true) :=
  ⟨searchGo_eq_filter _ _ h, fun _ => List.mem_filter⟩

/-- C1 counterexample: the block `bC1` carries the tag `"EFFICIENCY"`, so the
token `"efficiency"` occurs in the spec's lower-cased-tags search text, yet
`search("efficiency", "efficiency")` returns no block — the claimed "iff"
fails because the source does not lower-case tags. -/
theorem C1_counterexample :
    searchBlocks stC1 "efficiency" (some "efficiency") = Except.ok [] ∧
    scannedBlocks stC1 (some "efficiency") = [bC1] ∧
    (pyTokens "efficiency").all
      (fun t => strContains ((specSearchText bC1).getD "") t) = true :=
  ⟨rfl, rfl, rfl⟩

/-- C1 witness: a token that does occur (lower-cased title) is found. -/
theorem C1_witness :
    searchBlocks stC1 "workflow" (some "efficiency") = Except.ok [bC1] := by
  have h := (C1_search_token_characterization stC1 "workflow" (some "efficiency")
    (by decide)).1
  exact h.trans (by rfl)

/-- C6: validation failure on create() or update() is atomic — whenever the
operation reports an error (in particular every schema-validation error), the
store is exactly as before the call; the write happens only after validation
succeeds. -/
theorem C6_validation_failure_atomic (sc : Schema) (genId now : String)
    (data upd : Obj) (st : Store) (i : String) (e : VErr) :
    ((createBlock sc genId now data st).1 = Except.error e →
      (createBlock sc genId now data st).2 = st) ∧
    ((updateBlock sc st i upd now).1 = OpResult.error e →
      (updateBlock sc st i upd now).2 = st) :=
  ⟨createBlock_error_store, updateBlock_error_store⟩

/-- C6 witness: a create() missing the required `type` field and an update()
making `title` a non-string both fail validation under the (spec-modelled)
schema and leave the store untouched. -/
theorem C6_witness :
    (createBlock specSchema "g1" "T1"
        [("title", Json.str "T"), ("domain", Json.str "defense")] stC6).1 =
      Except.error (VErr.missingField "type") ∧
    (createBlock specSchema "g1" "T1"
        [("title", Json.str "T"), ("domain", Json.str "defense")] stC6).2 = stC6 ∧
    (updateBlock specSchema stC6 "b6" [("title", Json.int 5)] "T2").1 =
      OpResult.error (VErr.typeMismatch "title" "string") ∧
    (updateBlock specSchema stC6 "b6" [("title", Json.int 5)] "T2").2 = stC6 := by
  refine ⟨rfl, ?_, rfl, ?_⟩
  · exact (C6_validation_failure_atomic specSchema "g1" "T1"
      [("title", Json.str "T"), ("domain", Json.str "defense")] [] stC6 "b6"
      (VErr.missingField "type")).1 rfl
  · exact (C6_validation_failure_atomic specSchema "g1" "T1"
      [("title", Json.str "T"), ("domain", Json.str "defense")]
      [("title", Json.int 5)] stC6 "b6"
      (VErr.typeMismatch "title" "string")).2 rfl

/-- C10: a query whose lower-cased whitespace split yields no tokens makes the
all-tokens condition vacuously true, so search returns every stored block of
the scanned domains (in scan order), provided every scanned block's search
text is constructible (the source builds it before the vacuous check). -/
theorem C10_empty_query_returns_all (st : Store) (q : String)
    (dom : Option String) (hq : pyTokens q = [])
    (h : ∀ b ∈ scannedBlocks st dom, (searchText b).isSome) :
    searchBlocks st q dom = Except.ok (scannedBlocks st dom) := by
  unfold searchBlocks
  rw [hq, searchGo_eq_filter [] _ h]
  congr 1
  exact List.filter_eq_self.mpr (fun b hb => termsMatch_nil (h b hb))

/-- C10 witness: a whitespace-only query returns the store's only block. -/
theorem C10_witness :
    searchBlocks stC10 "  " none = Except.ok (scannedBlocks stC10 none) ∧
    scannedBlocks stC10 none = [bC10] := by
  refine ⟨?_, rfl⟩
  exact C10_empty_query_returns_all stC10 "  " none (by rfl) (by decide)

/-- C2 (amended): a successful `update()` bumps the minor component of the
MERGED record's version by exactly 1 and keeps its major component: when the
payload does not set `version`, the stored block's minor version increases by
1 and its major is unchanged; but a payload that sets `version` overrides the
stored version before the bump (manager.py:156 precedes 160-162), so the
result is the payload's version with its minor incremented. -/
theorem C2_minor_version_increment (sc : Schema) (st st₂ : Store)
    (i now : String) (upd b' : Obj)
    (h : updateBlock sc st i upd now = (OpResult.ok b', st₂)) :
    (∀ b v ma mi, dGet upd "version" = none →
      getBlock st i none = some b →
      dGet b "version" = some (Json.str v) →
      parseVersion v = some (ma, mi) →
      dGet b' "version" = some (Json.str (formatVersion ma (mi + 1)))) ∧
    (∀ w wa wi, (upd.map Prod.fst).Nodup → ("version", Json.str w) ∈ upd →
      parseVersion w = some (wa, wi) →
      dGet b' "version" = some (Json.str (formatVersion wa (wi + 1)))) := by
  obtain ⟨b₀, hb₀, hvb, _, _⟩ := updateBlock_ok_shape h
  constructor
  · intro b v ma mi hnone hget hv hp
    rw [(lookupTruthy_some hb₀).1] at hget
    injection hget with hget
    subst hget
    have hmv : dGet (mergedBlock b₀ upd now) "version" = some (Json.str v) := by
      rw [mergedBlock_frame_absent _ _ _ _ (by decide) hnone]
      exact hv
    rw [versionBump_of_parse hmv hp] at hvb
    injection hvb with hvb
    subst hvb
    exact dGet_dSet_self _ _ _
  · intro w wa wi hnd hmem hp
    have hmv : dGet (mergedBlock b₀ upd now) "version" = some (Json.str w) :=
      mergedBlock_of_mem _ _ _ _ _ (by decide) hnd hmem
    rw [versionBump_of_parse hmv hp] at hvb
    injection hvb with hvb
    subst hvb
    exact dGet_dSet_self _ _ _

/-- C2 counterexample: on a block at version `"1.0"`, an update whose payload
sets `version` to `"3.5"` succeeds and stores version `"3.6"` — the major
component changed from 1 to 3, refuting "never changes the major component,
for every partial-update payload". -/
theorem C2_counterexample :
    dGet bC2 "version" = some (Json.str "1.0") ∧
    ∃ b' st₂, updateBlock specSchema stC2 "b2" [("version", Json.str "3.5")] "T1" =
      (OpResult.ok b', st₂) ∧ dGet b' "version" = some (Json.str "3.6") := by
  exact ⟨rfl, _, _, rfl, rfl⟩

/-- C2 witness: two successive version-free updates take `"1.0"` to `"1.1"`
and then `"1.2"`. -/
theorem C2_witness :
    updateBlock specSchema stC2 "b2" [] "T1" = (OpResult.ok bC2v1, stC2v1) ∧
    dGet bC2v1 "version" = some (Json.str "1.1") ∧
    ∃ b₂ st₂, updateBlock specSchema stC2v1 "b2" [] "T2" = (OpResult.ok b₂, st₂) ∧
      dGet b₂ "version" = some (Json.str "1.2") := by
  refine ⟨rfl, ?_, _, _, rfl, ?_⟩
  · exact ((C2_minor_version_increment specSchema stC2 stC2v1 "b2" "T1" [] bC2v1
      rfl).1 bC2 "1.0" 1 0 rfl rfl rfl rfl).trans rfl
  · exact ((C2_minor_version_increment specSchema stC2v1 _ "b2" "T2" [] _
      rfl).1 bC2v1 "1.1" 1 1 rfl rfl rfl rfl).trans rfl

/-- C3: after a successful `add_feedback()`, the block's rating equals the
arithmetic mean of the ratings present in its (post-append) feedback sequence,
entries without a rating excluded; when no entry carries a rating the stored
rating is left exactly as it was (0.0 for a block created with defaults). -/
theorem C3_rating_mean (st : Store) (i fbId now : String) (fb b' : Obj)
    (st₂ : Store) (h : addFeedback st i fb fbId now = (OpResult.ok b', st₂)) :
    ∃ b entries qs, getBlock st i none = some b ∧
      dGet b' "feedback" = some (Json.arr entries) ∧
      ratingsOf entries = Except.ok qs ∧
      (qs ≠ [] → dGet b' "rating" = some (Json.num (qs.sum / qs.length))) ∧
      (qs = [] → dGet b' "rating" = dGet b "rating") := by
  obtain ⟨b, b₁, entries, qs, hb, hfa, hqs, hb', hs⟩ := addFeedback_ok_shape h
  obtain ⟨hb₁, old, hent⟩ := feedbackAppend_ok_shape hfa
  subst hb'
  subst hb₁
  refine ⟨b, entries, qs, (lookupTruthy_some hb).1, ?_, hqs, ?_, ?_⟩
  · unfold withRating
    by_cases hqe : qs.isEmpty
    · rw [if_pos hqe]
      exact dGet_dSet_self _ _ _
    · rw [if_neg hqe, dGet_dSet_ne _ _ _ _ (by decide)]
      exact dGet_dSet_self _ _ _
  · intro hne
    unfold withRating
    rw [if_neg (by simpa using hne)]
    exact dGet_dSet_self _ _ _
  · intro hqe
    unfold withRating
    rw [if_pos (by simp [hqe]), dGet_dSet_ne _ _ _ _ (by decide)]

/-- C3 witness: feedback ratings 3 and 5 produce a stored rating of 4.0, and
the stored feedback sequence is the two appended entries. -/
theorem C3_witness :
    ∃ b' st₂, addFeedback stC3 "b3" [("rating", Json.int 5)] "f3" "T1" =
      (OpResult.ok b', st₂) ∧ dGet b' "feedback" = some (Json.arr entC3) ∧
      dGet b' "rating" = some (Json.num 4) := by
  obtain ⟨b, entries, qs, hb, hfb, hqs, hmean, _⟩ :=
    C3_rating_mean stC3 "b3" "f3" "T1" [("rating", Json.int 5)] _ _ rfl
  have hfb' : some (Json.arr entC3) = some (Json.arr entries) := hfb
  injection hfb' with h1
  injection h1 with h1
  subst h1
  have hqs' : Except.ok (ε := VErr) qC3 = Except.ok qs := hqs
  injection hqs' with h2
  subst h2
  have hne : qC3 ≠ [] := by simp [qC3]
  have h4 : qC3.sum / (qC3.length : ℚ) = 4 := by
    norm_num [qC3]
  refine ⟨_, _, rfl, hfb, ?_⟩
  exact (hmean hne).trans (by rw [h4])

theorem withRating_frame (b₁ : Obj) (qs : List ℚ) (k : String)
    (hk : k ≠ "rating") : dGet (withRating b₁ qs) k = dGet b₁ k := by
  unfold withRating
  split
  · rfl
  · exact dGet_dSet_ne _ _ _ _ (fun hh => hk hh.symm)

theorem withId_frame {data d₁ : Obj} {gid : String}
    (h : withId data gid = Except.ok d₁) (k : String) (hk : k ≠ "id") :
    dGet d₁ k = dGet data k := by
  unfold withId at h
  split at h
  · injection h with h; subst h; rfl
  · split at h <;> try cases h
    exact dGet_dSet_ne _ _ _ _ (fun hh => hk hh.symm)

theorem store_id_reachable {st st₂ : Store} (hwf₂ : storeWFb st₂ = true)
    (hshape : st₂ = st ∨ ∃ k m, st₂ = storeSet st k m) (i : String) :
    (∀ b, getBlock st₂ i none = some b → dGet b "id" = some (Json.str i)) ∧
    ((getBlock st i none).isSome → (getBlock st₂ i none).isSome) := by
  constructor
  · intro b hb
    exact isStrVal_iff.mp (getBlock_wf_fields hwf₂ hb).1
  · intro hs
    rcases hshape with h | ⟨k, m, h⟩
    · rwa [h]
    · rw [h]
      exact getBlock_isSome_storeSet st k m i hs

/-- C4: a block's id is immutable.  In a well-formed store (every stored
record's `id`/`domain` fields name its own path — the invariant `_save_block`
maintains), after any `update_block`, `add_feedback` or `increment_usage`
call — with any target id and any payload — every block still reachable under
an id carries exactly that id, and a block reachable before the call is still
reachable.  Update runs under the (spec-modelled) deployment schema, which
requires `id` to be a string. -/
theorem C4_id_immutable (st : Store) (i i' fbId now : String) (upd fb : Obj)
    (hwf : storeWFb st = true) :
    ((∀ b, getBlock (updateBlock specSchema st i' upd now).2 i none = some b →
        dGet b "id" = some (Json.str i)) ∧
      ((getBlock st i none).isSome →
        (getBlock (updateBlock specSchema st i' upd now).2 i none).isSome)) ∧
    ((∀ b, getBlock (addFeedback st i' fb fbId now).2 i none = some b →
        dGet b "id" = some (Json.str i)) ∧
      ((getBlock st i none).isSome →
        (getBlock (addFeedback st i' fb fbId now).2 i none).isSome)) ∧
    ((∀ b, getBlock (incrementUsage st i').2 i none = some b →
        dGet b "id" = some (Json.str i)) ∧
      ((getBlock st i none).isSome →
        (getBlock (incrementUsage st i').2 i none).isSome)) :=
  ⟨store_id_reachable (updateBlock_store_wf hwf)
      (updateBlock_store_shape specSchema st i' now upd) i,
   store_id_reachable (addFeedback_store_wf hwf)
      (addFeedback_store_shape st i' fbId now fb) i,
   store_id_reachable (incrementUsage_store_wf hwf)
      (incrementUsage_store_shape st i') i⟩

/-- C4 witness: after an update changing `content`, the block fetched under
the original id `"b4"` still carries id `"b4"`. -/
theorem C4_witness :
    ∃ b, getBlock
        (updateBlock specSchema stC4 "b4" [("content", Json.str "new")] "T1").2
        "b4" none = some b ∧
      dGet b "id" = some (Json.str "b4") := by
  have h := C4_id_immutable stC4 "b4" "b4" "f4" "T1"
    [("content", Json.str "new")] [] rfl
  have hb := h.1.2 rfl
  obtain ⟨b, hbe⟩ := Option.isSome_iff_exists.mp hb
  exact ⟨b, hbe, h.1.1 b hbe⟩

/-- C5 (amended): `update()` refreshes `updated_at` to the mutation time, but
`add_feedback()` and `increment_usage()` leave `updated_at` exactly as stored
(manager.py:242-274 never touch it); `created_at` is stamped at creation when
absent from the payload and is unchanged by add_feedback/increment_usage and
by updates whose payload does not set it. -/
theorem C5_updated_at_behavior (sc : Schema) (st : Store)
    (i gid now fbId : String) (upd fb data : Obj) :
    (∀ b' st₂, updateBlock sc st i upd now = (OpResult.ok b', st₂) →
      dGet b' "updated_at" = some (Json.str now) ∧
      (dGet upd "created_at" = none → ∀ b, getBlock st i none = some b →
        dGet b' "created_at" = dGet b "created_at")) ∧
    (∀ b' st₂, addFeedback st i fb fbId now = (OpResult.ok b', st₂) →
      ∀ b, getBlock st i none = some b →
        dGet b' "updated_at" = dGet b "updated_at" ∧
        dGet b' "created_at" = dGet b "created_at") ∧
    (∀ b' st₂, incrementUsage st i = (OpResult.ok b', st₂) →
      ∀ b, getBlock st i none = some b →
        dGet b' "updated_at" = dGet b "updated_at" ∧
        dGet b' "created_at" = dGet b "created_at") ∧
    (∀ bc st₂, createBlock sc gid now data st = (Except.ok bc, st₂) →
      dGet data "created_at" = none →
      dGet bc "created_at" = some (Json.str now) ∧
      dGet bc "updated_at" = some (Json.str now)) := by
  refine ⟨?_, ?_, ?_, ?_⟩
  · intro b' st₂ h
    obtain ⟨b₀, hb₀, hvb, _, _⟩ := updateBlock_ok_shape h
    constructor
    · rw [versionBump_frame hvb (by decide)]
      exact mergedBlock_updated_at _ _ _
    · intro hnone b hb
      rw [(lookupTruthy_some hb₀).1] at hb
      injection hb with hb
      subst hb
      rw [versionBump_frame hvb (by decide)]
      exact mergedBlock_frame_absent _ _ _ _ (by decide) hnone
  · intro b' st₂ h b hb
    obtain ⟨b₀, b₁, entries, qs, hb₀, hfa, _, hb', _⟩ := addFeedback_ok_shape h
    obtain ⟨hb₁, _, _⟩ := feedbackAppend_ok_shape hfa
    rw [(lookupTruthy_some hb₀).1] at hb
    injection hb with hb
    subst hb
    subst hb'
    subst hb₁
    constructor
    · rw [withRating_frame _ _ _ (by decide)]
      exact dGet_dSet_ne _ _ _ _ (by decide)
    · rw [withRating_frame _ _ _ (by decide)]
      exact dGet_dSet_ne _ _ _ _ (by decide)
  · intro b' st₂ h b hb
    obtain ⟨b₀, v, hb₀, _, hb', _⟩ := incrementUsage_ok_shape h
    rw [(lookupTruthy_some hb₀).1] at hb
    injection hb with hb
    subst hb
    subst hb'
    exact ⟨dGet_dSet_ne _ _ _ _ (by decide), dGet_dSet_ne _ _ _ _ (by decide)⟩
  · intro bc st₂ h hnone
    obtain ⟨d₁, hw, hbc, _, _⟩ := createBlock_ok_shape h
    subst hbc
    refine ⟨?_, withDefaults_updated_at _ _⟩
    exact withDefaults_created_at _ ((withId_frame hw _ (by decide)).trans hnone)

/-- C5 counterexample: on a block whose stored `updated_at` is `"T0"`, both a
successful `add_feedback` at time `"T1"` (the entry itself is stamped `"T1"`)
and a successful `increment_usage` leave `updated_at` at `"T0"`, refuting
"each successful update(), add_feedback(), and increment_usage() sets
`updated_at` to the time of that mutation". -/
theorem C5_counterexample :
    ∃ b' st₂, addFeedback stC5 "b5" [] "f5" "T1" = (OpResult.ok b', st₂) ∧
      dGet b' "updated_at" = some (Json.str "T0") ∧
      ∃ b'' st₃, incrementUsage stC5 "b5" = (OpResult.ok b'', st₃) ∧
        dGet b'' "updated_at" = some (Json.str "T0") ∧
        ("T0" : String) ≠ "T1" :=
  ⟨_, _, rfl, rfl, _, _, rfl, rfl, by decide⟩

/-- C5 witness: update refreshes `updated_at`; add_feedback, increment_usage
keep it; create stamps `created_at`/`updated_at`.  (The schema argument is
irrelevant to timestamps, so the empty schema is used to let the sparse
fixture validate.) -/
theorem C5_witness :
    (∃ b₁ s₁, updateBlock ⟨[], []⟩ stC5 "b5" [] "T1" = (OpResult.ok b₁, s₁) ∧
      dGet b₁ "updated_at" = some (Json.str "T1") ∧
      dGet b₁ "created_at" = some (Json.str "T0")) ∧
    (∃ b₂ s₂, addFeedback stC5 "b5" [] "f5" "T1" = (OpResult.ok b₂, s₂) ∧
      dGet b₂ "updated_at" = some (Json.str "T0")) ∧
    (∃ b₃ s₃, incrementUsage stC5 "b5" = (OpResult.ok b₃, s₃) ∧
      dGet b₃ "updated_at" = some (Json.str "T0")) ∧
    (∃ b₄ s₄, createBlock ⟨[], []⟩ "g5" "T1"
        [("title", Json.str "t"), ("domain", Json.str "defense")] stC5 =
        (Except.ok b₄, s₄) ∧
      dGet b₄ "created_at" = some (Json.str "T1") ∧
      dGet b₄ "updated_at" = some (Json.str "T1")) := by
  have h := C5_updated_at_behavior ⟨[], []⟩ stC5 "b5" "g5" "T1" "f5" [] []
    [("title", Json.str "t"), ("domain", Json.str "defense")]
  refine ⟨⟨_, _, rfl, ?_, ?_⟩, ⟨_, _, rfl, ?_⟩, ⟨_, _, rfl, ?_⟩, ⟨_, _, rfl, ?_, ?_⟩⟩
  · exact (h.1 _ _ rfl).1
  · exact ((h.1 _ _ rfl).2 rfl bC5 rfl).trans rfl
  · exact ((h.2.1 _ _ rfl) bC5 rfl).1.trans rfl
  · exact ((h.2.2.1 _ _ rfl) bC5 rfl).1.trans rfl
  · exact (h.2.2.2 _ _ rfl rfl).1
  · exact (h.2.2.2 _ _ rfl rfl).2

/-- C7 (amended): `delete()` on an id with no stored block returns `false`
without raising; on a well-formed store in which the id is stored in at most
one domain, `delete()` on an existing id removes the backing file, returns
`true`, and a subsequent domain-less `get()` of that id returns `None`.
(With the same id stored in several domains — reachable by passing explicit
ids to create — only the first-found file is removed and `get()` still finds
the other copy, see the counterexample.) -/
theorem C7_delete_contract (st : Store) (i : String)
    (hwf : storeWFb st = true)
    (huniq : ∀ d ∈ knownDomains, ∀ d' ∈ knownDomains,
      (storeGet st d i).isSome = true → (storeGet st d' i).isSome = true → d = d') :
    (getBlock st i none = none → deleteBlock st i = (Except.ok false, st)) ∧
    (∀ b, getBlock st i none = some b →
      (deleteBlock st i).1 = Except.ok true ∧
      getBlock (deleteBlock st i).2 i none = none) := by
  constructor
  · intro h
    unfold deleteBlock
    rw [lookupTruthy_of_get_none h]
  · intro b hb
    obtain ⟨d₀, hd₀m, hg⟩ := getBlock_none_some hb
    have hfields := storeWFb_mem hwf (storeGet_mem hg)
    have hdom : dGet b "domain" = some (Json.str d₀) := isStrVal_iff.mp hfields.2
    have hsome : (storeGet st d₀ i).isSome = true := by rw [hg]; rfl
    have hlt : lookupTruthy st i = some b :=
      lookupTruthy_of_get hb (dGet_some_not_isEmpty hdom)
    have hdel : deleteBlock st i = (Except.ok true, storeDel st d₀ i) := by
      unfold deleteBlock
      simp only [hlt, hdom]
      rw [if_pos hsome]
    rw [hdel]
    refine ⟨rfl, ?_⟩
    simp only [getBlock]
    apply List.findSome?_eq_none_iff.mpr
    intro d hdm
    by_cases hd : d = d₀
    · subst hd
      exact storeGet_storeDel_self st d i
    · rw [storeGet_storeDel_ne st d₀ i d i (fun hh => hd hh.1)]
      by_contra hne
      have hs : (storeGet st d i).isSome = true :=
        Option.isSome_iff_ne_none.mpr hne
      exact hd (huniq d hdm d₀ hd₀m hs hsome)

/-- C7 counterexample: `stC7` stores the id `"x"` in both `defense` and
`proactive`; `delete("x")` removes the defense file and returns `true`, but a
subsequent `get("x")` still returns the proactive block — refuting "a
subsequent get() of that id returns not-found, for every store state". -/
theorem C7_counterexample :
    (deleteBlock stC7 "x").1 = Except.ok true ∧
    getBlock (deleteBlock stC7 "x").2 "x" none = some bC7p :=
  ⟨rfl, rfl⟩

/-- C7 witness: on a single-copy store, delete returns true and get then
misses; delete of an absent id returns false and leaves the store alone. -/
theorem C7_witness :
    (deleteBlock stC7w "y").1 = Except.ok true ∧
    getBlock (deleteBlock stC7w "y").2 "y" none = none ∧
    deleteBlock stC7w "nope" = (Except.ok false, stC7w) := by
  have h := C7_delete_contract stC7w "y" rfl (by decide)
  have h2 := h.2 _ rfl
  have h3 := C7_delete_contract stC7w "nope" rfl (by decide)
  exact ⟨h2.1, h2.2, h3.1 rfl⟩

/-- C8: `export(format)` fails with the UnsupportedFormat `ValueError` for
every format other than `"json"` and `"markdown"`; `export("markdown")` is the
fixed header followed by exactly one `##` section per stored block (in scan
order), each section carrying the block's id, domain, type, rating, usage
count, and content followed by the `---` separator. -/
theorem C8_export_contract (st : Store) (fmt : String) :
    (fmt ≠ "json" → fmt ≠ "markdown" →
      exportBlocks st fmt = Except.error (VErr.unsupportedFormat fmt)) ∧
    exportBlocks st "markdown" =
      Except.ok (mdHeader ++ strJoin ((scannedBlocks st none).map mdSection)) ∧
    ((scannedBlocks st none).map mdSection).length = (scannedBlocks st none).length ∧
    ∀ b, charsStarts (mdSection b).data ("## ").data = true ∧
      strContains (mdSection b)
        ("ID: " ++ pyStr (dGetD b "id" (Json.str "N/A")) ++ "\n") = true ∧
      strContains (mdSection b)
        ("Domain: " ++ pyStr (dGetD b "domain" (Json.str "N/A")) ++ "\n") = true ∧
      strContains (mdSection b)
        ("Type: " ++ pyStr (dGetD b "type" (Json.str "N/A")) ++ "\n") = true ∧
      strContains (mdSection b)
        ("Rating: " ++ pyStr (dGetD b "rating" (Json.str "N/A")) ++ "\n") = true ∧
      strContains (mdSection b)
        ("Usage: " ++ pyStr (dGetD b "usage_count" (Json.int 0)) ++ "\n\n") = true ∧
      strContains (mdSection b)
        (pyStr (dGetD b "content" (Json.str "No content")) ++ "\n\n---\n\n") = true := by
  refine ⟨?_, rfl, (scannedBlocks st none).length_map mdSection, ?_⟩
  · intro h₁ h₂
    unfold exportBlocks
    rw [if_neg h₁, if_neg h₂]
  · intro b
    refine ⟨?_, ?_, ?_, ?_, ?_, ?_, ?_⟩
    · have hdata : (mdSection b).data = ("## ").data ++
          ((pyStr (dGetD b "title" (Json.str "Untitled")) ++ "\n" ++
            "ID: " ++ pyStr (dGetD b "id" (Json.str "N/A")) ++ "\n" ++
            "Domain: " ++ pyStr (dGetD b "domain" (Json.str "N/A")) ++ "\n" ++
            "Type: " ++ pyStr (dGetD b "type" (Json.str "N/A")) ++ "\n" ++
            "Rating: " ++ pyStr (dGetD b "rating" (Json.str "N/A")) ++ "\n" ++
            "Usage: " ++ pyStr (dGetD b "usage_count" (Json.int 0)) ++ "\n\n" ++
            pyStr (dGetD b "content" (Json.str "No content")) ++ "\n\n" ++
            "---\n\n").data) := by
        simp [mdSection, String.data_append, List.append_assoc]
      rw [hdata]
      exact charsStarts_refl_append _ _
    · apply strContains_of_parts _
        ("## " ++ pyStr (dGetD b "title" (Json.str "Untitled")) ++ "\n") _
        ("Domain: " ++ pyStr (dGetD b "domain" (Json.str "N/A")) ++ "\n" ++
         "Type: " ++ pyStr (dGetD b "type" (Json.str "N/A")) ++ "\n" ++
         "Rating: " ++ pyStr (dGetD b "rating" (Json.str "N/A")) ++ "\n" ++
         "Usage: " ++ pyStr (dGetD b "usage_count" (Json.int 0)) ++ "\n\n" ++
         pyStr (dGetD b "content" (Json.str "No content")) ++ "\n\n" ++ "---\n\n")
      simp [mdSection, String.data_append, List.append_assoc]
    · apply strContains_of_parts _
        ("## " ++ pyStr (dGetD b "title" (Json.str "Untitled")) ++ "\n" ++
         "ID: " ++ pyStr (dGetD b "id" (Json.str "N/A")) ++ "\n") _
        ("Type: " ++ pyStr (dGetD b "type" (Json.str "N/A")) ++ "\n" ++
         "Rating: " ++ pyStr (dGetD b "rating" (Json.str "N/A")) ++ "\n" ++
         "Usage: " ++ pyStr (dGetD b "usage_count" (Json.int 0)) ++ "\n\n" ++
         pyStr (dGetD b "content" (Json.str "No content")) ++ "\n\n" ++ "---\n\n")
      simp [mdSection, String.data_append, List.append_assoc]
    · apply strContains_of_parts _
        ("## " ++ pyStr (dGetD b "title" (Json.str "Untitled")) ++ "\n" ++
         "ID: " ++ pyStr (dGetD b "id" (Json.str "N/A")) ++ "\n" ++
         "Domain: " ++ pyStr (dGetD b "domain" (Json.str "N/A")) ++ "\n") _
        ("Rating: " ++ pyStr (dGetD b "rating" (Json.str "N/A")) ++ "\n" ++
         "Usage: " ++ pyStr (dGetD b "usage_count" (Json.int 0)) ++ "\n\n" ++
         pyStr (dGetD b "content" (Json.str "No content")) ++ "\n\n" ++ "---\n\n")
      simp [mdSection, String.data_append, List.append_assoc]
    · apply strContains_of_parts _
        ("## " ++ pyStr (dGetD b "title" (Json.str "Untitled")) ++ "\n" ++
         "ID: " ++ pyStr (dGetD b "id" (Json.str "N/A")) ++ "\n" ++
         "Domain: " ++ pyStr (dGetD b "domain" (Json.str "N/A")) ++ "\n" ++
         "Type: " ++ pyStr (dGetD b "type" (Json.str "N/A")) ++ "\n") _
        ("Usage: " ++ pyStr (dGetD b "usage_count" (Json.int 0)) ++ "\n\n" ++
         pyStr (dGetD b "content" (Json.str "No content")) ++ "\n\n" ++ "---\n\n")
      simp [mdSection, String.data_append, List.append_assoc]
    · apply strContains_of_parts _
        ("## " ++ pyStr (dGetD b "title" (Json.str "Untitled")) ++ "\n" ++
         "ID: " ++ pyStr (dGetD b "id" (Json.str "N/A")) ++ "\n" ++
         "Domain: " ++ pyStr (dGetD b "domain" (Json.str "N/A")) ++ "\n" ++
         "Type: " ++ pyStr (dGetD b "type" (Json.str "N/A")) ++ "\n" ++
         "Rating: " ++ pyStr (dGetD b "rating" (Json.str "N/A")) ++ "\n") _
        (pyStr (dGetD b "content" (Json.str "No content")) ++ "\n\n" ++ "---\n\n")
      simp [mdSection, String.data_append, List.append_assoc]
    · apply strContains_of_parts _
        ("## " ++ pyStr (dGetD b "title" (Json.str "Untitled")) ++ "\n" ++
         "ID: " ++ pyStr (dGetD b "id" (Json.str "N/A")) ++ "\n" ++
         "Domain: " ++ pyStr (dGetD b "domain" (Json.str "N/A")) ++ "\n" ++
         "Type: " ++ pyStr (dGetD b "type" (Json.str "N/A")) ++ "\n" ++
         "Rating: " ++ pyStr (dGetD b "rating" (Json.str "N/A")) ++ "\n" ++
         "Usage: " ++ pyStr (dGetD b "usage_count" (Json.int 0)) ++ "\n\n") _ ""
      simp [mdSection, String.data_append, List.append_assoc]

/-- C8 witness: an unrecognized format `"xml"` raises UnsupportedFormat and
the markdown export has the header/sections shape. -/
theorem C8_witness :
    exportBlocks stC8 "xml" = Except.error (VErr.unsupportedFormat "xml") ∧
    exportBlocks stC8 "markdown" =
      Except.ok (mdHeader ++ strJoin ((scannedBlocks stC8 none).map mdSection)) := by
  have h := C8_export_contract stC8 "xml"
  exact ⟨h.1 (by decide) (by decide), h.2.1⟩

/-- C9: parsing the toolkit document titled `报价-价值定价策略 v1.0` emits a
record with domain `"defense"` (domain_map["报价"]) and type `"tool"`
(type_map["价值定价策略"]), whose content contains neither the title line nor
the metadata heading/line. -/
theorem C9_converter_mapping (gid nowc : String) :
    ∃ blk, parseToolkit doc9 gid nowc = Except.ok blk ∧
      blk.domain = "defense" ∧ blk.type = "tool" ∧
      blk.title = "报价-价值定价策略" ∧
      strContains blk.content "报价-价值定价策略 v1.0" = false ∧
      strContains blk.content "## 元信息" = false ∧
      strContains blk.content "- **适用场景**: 报价谈判与价值沟通" = false :=
  ⟨_, rfl, rfl, rfl, rfl, rfl, rfl, rfl⟩
